import Mathlib

/-!
# Falcon Player: frame-buffer matrix output and the daemon main loop

A shallow embedding of `FBMatrixOutput::RawSendData` and `FBMatrixOutput::Init`
(`src/channeloutput/FBMatrix.cpp`) and of the body of `MainLoop` (`src/fppd.c`).

Memory model.  A C buffer is modelled by the function that gives the byte stored at
each offset from the buffer's base pointer.  The mapped frame buffer `m_fbp` is indexed
by `Int` offsets (the destination cursors are computed from the signed row counter
`drow`), the channel data and the diff snapshot by `Nat` offsets (their cursors only
grow).  The mapped surface is the offsets `0 .. m_screenSize - 1` of `m_fbp`, the frame
and the snapshot are the offsets `0 .. m_channelCount - 1` of their buffers.  In
`renderFb` and `RawSendData` an access past the end of a buffer is an access to the
offsets that follow it: it neither fails nor touches another buffer, so these two say
what the call does only while its accesses stay inside the buffers.  `renderSafe` decides
whether they do, and `RawSendDataChecked` is the call with every access checked: it
yields no result when an access leaves its buffer, where the source has undefined
behaviour.  Cursor arithmetic is unbounded (no wrap at 32 bits), and the width and the
height of a surface being rendered are natural numbers.
-/

namespace FPP

/-! ## Rendering: `FBMatrixOutput::RawSendData` -/

/-- The fields of an `FBMatrixOutput` that `RawSendData` uses. `m_fbp` and
`m_lastFrame` hold the contents of the buffers the pointers of these names point to;
`m_rgb565map b g r` is the entry `m_rgb565map[b][g][r]` of the lookup cube. -/
structure FBMatrixOutput where
  m_width : Nat
  m_height : Nat
  m_useRGB : Bool
  m_inverted : Bool
  m_bpp : Nat
  m_screenSize : Nat
  m_channelCount : Nat
  m_fbp : Int → Nat
  m_lastFrame : Nat → Nat
  m_rgb565map : Nat → Nat → Nat → Nat

/-- The C library `memcmp(a + i, b + j, n)`: the difference of the first pair of bytes
that differ, `0` when the `n` bytes agree. -/
def memcmp (a : Nat → Nat) (i : Nat) (b : Nat → Nat) (j : Nat) : Nat → Int
  | 0 => 0
  | n + 1 => if a i = b j then memcmp a (i + 1) b (j + 1) n else (a i : Int) - (b j : Int)

/-- The C library `memcpy(dst + d, src + s, n)` into the mapped frame buffer. -/
def memcpyFb (dst : Int → Nat) (d : Int) (src : Nat → Nat) (s : Nat) (n : Nat) :
    Int → Nat :=
  fun a => if d ≤ a ∧ a < d + n then src (s + (a - d).toNat) else dst a

/-- The C library `memcpy(dst, src, n)` between two buffers addressed from their
start. -/
def memcpy (dst : Nat → Nat) (src : Nat → Nat) (n : Nat) : Nat → Nat :=
  fun i => if i < n then src i else dst i

/-- One byte store `*p = v` into the mapped frame buffer. -/
def store8 (fb : Int → Nat) (p : Int) (v : Nat) : Int → Nat :=
  fun a => if a = p then v else fb a

/-- The store `*((uint16_t*)d) = w` on a little-endian machine: the low byte at `d`,
the high byte at `d + 1`. -/
def store16 (fb : Int → Nat) (d : Int) (w : Nat) : Int → Nat :=
  store8 (store8 fb d (w % 256)) (d + 1) (w / 256 % 256)

/-- The local variables of `RawSendData` that the 16-bit path uses, with the contents
of the mapped frame buffer. -/
structure Cur16 where
  fb : Int → Nat
  sR : Nat
  sG : Nat
  sB : Nat
  l : Nat
  d : Int
  skipped : Nat
  srow : Nat
  drow : Int

/-- The catch-up of the 16-bit path: `if (skipped) { sG += skipped * 3; ... }`. -/
def catchUp16 (c : Cur16) : Cur16 :=
  if c.skipped ≠ 0 then
    { c with sG := c.sG + c.skipped * 3, sB := c.sB + c.skipped * 3,
             d := c.d + c.skipped * 2 }
  else c

/-- The word the 16-bit path stores for the pixel under the cursors. -/
def word16 (o : FBMatrixOutput) (ch : Nat → Nat) (c : Cur16) : Nat :=
  if o.m_useRGB then o.m_rgb565map (ch c.sR >>> 3) (ch c.sG >>> 2) (ch c.sB >>> 3)
  else o.m_rgb565map (ch c.sB >>> 3) (ch c.sG >>> 2) (ch c.sR >>> 3)

/-- The body of the inner loop (over `x`) of the 16-bit path. -/
def pixel16 (o : FBMatrixOutput) (ch : Nat → Nat) (c : Cur16) : Cur16 :=
  let c1 :=
    if memcmp o.m_lastFrame c.l ch c.sR 3 ≠ 0 then
      let c2 := catchUp16 c
      { c2 with fb := store16 c2.fb c2.d (word16 o ch c2),
                sG := c2.sG + 3, sB := c2.sB + 3, d := c2.d + 2 }
    else
      { c with skipped := c.skipped + 1 }
  { c1 with sR := c1.sR + 3, l := c1.l + 3 }

/-- The body of the outer loop (over `y`) of the 16-bit path. -/
def row16 (o : FBMatrixOutput) (ch : Nat → Nat) (ostride : Int) (c : Cur16) : Cur16 :=
  let c1 := (pixel16 o ch)^[o.m_width] { c with d := c.drow * ostride }
  { c1 with srow := c1.srow + 1, drow := c1.drow + (if o.m_inverted then -1 else 1) }

/-- The local variables of `RawSendData` that the 24-bit path with `m_useRGB` uses,
with the contents of the mapped frame buffer. -/
structure Cur24 where
  fb : Int → Nat
  sR : Nat
  sG : Nat
  sB : Nat
  l : Nat
  dR : Int
  dG : Int
  dB : Int
  srow : Nat
  drow : Int

/-- The body of the inner loop (over `x`) of the 24-bit path with `m_useRGB`. -/
def pixel24 (o : FBMatrixOutput) (ch : Nat → Nat) (c : Cur24) : Cur24 :=
  let fb1 :=
    if memcmp o.m_lastFrame c.l ch c.sB 3 ≠ 0 then
      store8 (store8 (store8 c.fb c.dR (ch c.sR)) c.dG (ch c.sG)) c.dB (ch c.sB)
    else c.fb
  { c with fb := fb1, sR := c.sR + 3, sG := c.sG + 3, sB := c.sB + 3,
           dR := c.dR + 3, dG := c.dG + 3, dB := c.dB + 3 }

/-- The body of the outer loop (over `y`) of the 24-bit path with `m_useRGB`. -/
def row24 (o : FBMatrixOutput) (ch : Nat → Nat) (ostride : Int) (c : Cur24) : Cur24 :=
  let c1 := (pixel24 o ch)^[o.m_width]
    { c with dR := c.drow * ostride + 2, dG := c.drow * ostride + 1,
             dB := c.drow * ostride + 0 }
  { c1 with srow := c1.srow + 1, drow := c1.drow + (if o.m_inverted then -1 else 1) }

/-- The local variables of the inverted native 24-bit path. -/
structure CurInv where
  fb : Int → Nat
  src : Nat
  dst : Int

/-- The body of the loop of the inverted native 24-bit path. -/
def rowInv (ch : Nat → Nat) (istride : Nat) (ostride : Int) (c : CurInv) : CurInv :=
  { fb := memcpyFb c.fb c.dst ch c.src istride,
    src := c.src + istride,
    dst := c.dst - ostride }

/-- The contents of the mapped frame buffer after the rendering part of
`RawSendData(channelData)`. -/
def renderFb (o : FBMatrixOutput) (channelData : Nat → Nat) : Int → Nat :=
  let ostride : Int := ((o.m_width * o.m_bpp / 8 : Nat) : Int)
  let srow : Nat := 0
  let drow : Int := if o.m_inverted then (o.m_height : Int) - 1 else 0
  if o.m_bpp = 16 then
    ((row16 o channelData ostride)^[o.m_height]
      { fb := o.m_fbp, sR := 0, sG := 1, sB := 2, l := 0, d := 0, skipped := 0,
        srow := srow, drow := drow }).fb
  else if o.m_useRGB then
    ((row24 o channelData ostride)^[o.m_height]
      { fb := o.m_fbp, sR := 0, sG := 1, sB := 2, l := 0, dR := 0, dG := 0, dB := 0,
        srow := srow, drow := drow }).fb
  else if o.m_inverted then
    let istride := o.m_width * 3
    ((rowInv channelData istride ostride)^[o.m_height]
      { fb := o.m_fbp, src := 0, dst := ostride * ((o.m_height : Int) - 1) }).fb
  else
    memcpyFb o.m_fbp 0 channelData 0 o.m_screenSize

/-- The value of an integer expression stored in a 32-bit `unsigned int`. -/
def toU32 (z : Int) : Nat := (z % 4294967296).toNat

/-- The value of an integer expression stored in a 32-bit `int` (two's complement). -/
def toInt32 (z : Int) : Int := (z + 2147483648) % 4294967296 - 2147483648

/-- The method `int FBMatrixOutput::RawSendData(unsigned char *channelData)` on a call
whose accesses all lie in their buffers: the object after the call and the `int`
returned, which is the `unsigned int` field `m_channelCount` converted to `int` by
`return m_channelCount;`. What the offsets outside the buffers hold after such a call
is not meant; `RawSendDataChecked` below is the method with every access checked, and
yields no result when one of them leaves its buffer. -/
def RawSendData (o : FBMatrixOutput) (channelData : Nat → Nat) : FBMatrixOutput × Int :=
  ({ o with m_fbp := renderFb o channelData,
            m_lastFrame := memcpy o.m_lastFrame channelData o.m_channelCount },
   toInt32 (o.m_channelCount : Int))

/-- The mapped surface: the first `m_screenSize` bytes of the mapped frame buffer. -/
def surface (o : FBMatrixOutput) : List Nat :=
  (List.range o.m_screenSize).map (fun i => o.m_fbp (i : Int))

/-- A buffer whose first bytes are those of the list and whose other bytes are `0`. -/
def ofList (xs : List Nat) : Nat → Nat := fun i => xs.getD i 0

/-- A blank mapped frame buffer. -/
def blankFb : Int → Nat := fun _ => 0

/-! ## Initialisation: `FBMatrixOutput::Init` -/

/-- The `struct fb_bitfield` of `linux/fb.h`. -/
structure fb_bitfield where
  offset : Nat
  length : Nat
  msb_right : Nat
deriving DecidableEq, Repr

/-- The `struct fb_var_screeninfo` of `linux/fb.h`; `others` stands for the fields
that `Init` neither reads nor writes. -/
structure fb_var_screeninfo where
  xres : Nat
  yres : Nat
  xres_virtual : Nat
  yres_virtual : Nat
  bits_per_pixel : Nat
  red : fb_bitfield
  green : fb_bitfield
  blue : fb_bitfield
  transp : fb_bitfield
  others : List Nat
deriving DecidableEq, Repr

/-- The responses of the operating system to the calls `Init` makes, in the order of
the calls: `open` of the frame-buffer device, `FBIOGET_VSCREENINFO` (result and the
structure filled in), the first `FBIOPUT_VSCREENINFO` (result and the structure as the
driver leaves it, for the structure committed), `FBIOGET_FSCREENINFO`, `open` of
`/dev/console`, `mmap`, `malloc`, and the value of `ThreadedChannelOutputBase::Init`. -/
structure Device where
  open_fb : Int
  get_vscreeninfo : Int × fb_var_screeninfo
  put_vscreeninfo : fb_var_screeninfo → Int × fb_var_screeninfo
  get_fscreeninfo : Int
  open_console : Int
  mmap_failed : Bool
  malloc_null : Bool
  base_Init : Int

/-- The C library `isspace` in the C locale. -/
def isspace (c : Char) : Bool :=
  c = ' ' || c = '\t' || c = '\n' || c = '\r' || c.toNat = 11 || c.toNat = 12

/-- The value of the leading decimal digits of a string. -/
def digitsVal : List Char → Nat → Nat
  | [], acc => acc
  | c :: cs, acc => if c.isDigit then digitsVal cs (acc * 10 + (c.toNat - 48)) else acc

/-- The C library `atoi`: white space, an optional sign, decimal digits; the result is
stored in an `int`. -/
def atoi (s : String) : Int :=
  match s.data.dropWhile isspace with
  | '-' :: r => toInt32 (-(digitsVal r 0 : Int))
  | '+' :: r => toInt32 (digitsVal r 0)
  | r => toInt32 (digitsVal r 0)

/-- The fields of the object that the configuration loop of `Init` sets, with the
values the constructor gives them. -/
structure Config where
  m_layout : String := ""
  m_width : Int := 0
  m_height : Int := 0
  m_useRGB : Int := 0
  m_inverted : Int := 0
  m_device : String := "/dev/fb0"
deriving DecidableEq, Repr

/-- The body of the configuration loop of `Init` for one element of the configuration
string. `split` is the string splitter of `common.h`. The result is `none` when the
body reads `parts[1]` of a `layout` value that has no second part. -/
def configElem (split : String → Char → List String) (c : Config) (e : String) :
    Option Config :=
  match split e '=' with
  | e0 :: e1 :: _ =>
    if e0 = "layout" then
      match split e1 'x' with
      | p0 :: p1 :: _ => some { c with m_layout := e1, m_width := atoi p0, m_height := atoi p1 }
      | _ => none
    else if e0 = "colorOrder" then
      if e1 = "RGB" then some { c with m_useRGB := 1 } else some c
    else if e0 = "invert" then
      some { c with m_inverted := atoi e1 }
    else if e0 = "device" then
      some { c with m_device := "/dev/" ++ e1 }
    else some c
  | _ => some c

/-- The configuration loop of `Init` over the elements of the configuration string. -/
def configLoop (split : String → Char → List String) : Config → List String → Option Config
  | c, [] => some c
  | c, e :: es =>
    match configElem split c e with
    | some c1 => configLoop split c1 es
    | none => none

/-- The configuration part of `Init`: the string is split at `;` and the loop run from
the constructor's values. -/
def parseConfig (split : String → Char → List String) (configStr : String) : Option Config :=
  configLoop split {} (split configStr ';')

/-- The `return` statement by which `Init` ends. -/
inductive InitExit where
  | openError
  | getInfoError
  | bppError
  | setInfoError
  | fixedInfoError
  | screenSizeError
  | channelCountError
  | consoleError
  | mmapError
  | mallocError
  | baseInit
deriving DecidableEq, Repr

/-- The shift `offset - (8 + (8 - length))` that `Init` computes for a bit field, in
32-bit arithmetic, stored in an `int`. -/
def fieldShift (f : fb_bitfield) : Int :=
  toInt32 ((f.offset : Int) - (8 + (8 - (f.length : Int))))

/-- The statement `if (shift >= 0) o |= v >> shift; else o |= v << abs(shift);` on the
16-bit variable `o`. -/
def orShifted (o : Nat) (v : Nat) (shift : Int) : Nat :=
  (o ||| (if shift ≥ 0 then v >>> shift.toNat else v <<< shift.natAbs)) % 65536

/-- The entry `m_rgb565map[b][g][r]` that the loops of `Init` compute from the bit
fields of `m_vInfo`. -/
def rgb565map (v : fb_var_screeninfo) (b g r : Nat) : Nat :=
  orShifted (orShifted (orShifted 0 r (fieldShift v.red)) g (fieldShift v.green)) b
    (fieldShift v.blue)

/-- What `Init` leaves behind: the value returned, the `return` statement taken, the
structures passed to `FBIOPUT_VSCREENINFO` in the order of the calls, and the fields of
the object. -/
structure InitResult where
  ret : Int
  exit : InitExit
  commits : List fb_var_screeninfo
  config : Config
  m_bpp : Nat
  m_screenSize : Nat
  m_vInfo : fb_var_screeninfo
  m_vInfoOrig : fb_var_screeninfo
deriving DecidableEq

/-- The result of a `return 0` of `Init`. -/
def initFail (c : Config) (e : InitExit) (commits : List fb_var_screeninfo)
    (bpp size : Nat) (v orig : fb_var_screeninfo) : InitResult :=
  ⟨0, e, commits, c, bpp, size, v, orig⟩

/-- The structure `m_vInfo` as `Init` commits it: the bit depth reported with 32
replaced by 24, the RGB565 bit fields when the depth is 16, and the resolution of the
layout. -/
def vInfoRequested (c : Config) (vGet : fb_var_screeninfo) : fb_var_screeninfo :=
  let v1 := if vGet.bits_per_pixel = 32 then { vGet with bits_per_pixel := 24 } else vGet
  let v2 :=
    if v1.bits_per_pixel = 16 then
      { v1 with red := { v1.red with offset := 11, length := 5 },
                green := { v1.green with offset := 5, length := 6 },
                blue := { v1.blue with offset := 0, length := 5 },
                transp := { v1.transp with offset := 0, length := 0 } }
    else v1
  { v2 with xres := toU32 c.m_width, xres_virtual := toU32 c.m_width,
            yres := toU32 c.m_height, yres_virtual := toU32 c.m_height }

/-- The structure `m_vInfoOrig` after the statements under the comment "Config to set
the screen back to when we are done". -/
def vInfoRestore (vGet : fb_var_screeninfo) : fb_var_screeninfo :=
  { vGet with bits_per_pixel := 16, xres := 640, xres_virtual := 640,
              yres := 480, yres_virtual := 480 }

/-- The part of `Init` from the computation of `m_screenSize` to the end: `v3` is the
structure committed, `v4` the structure `m_vInfo` as the driver left it, `orig` the
structure `m_vInfoOrig`. -/
def initChecks (dev : Device) (m_channelCount : Nat) (c : Config) (m_bpp : Nat)
    (v3 v4 orig : fb_var_screeninfo) : InitResult :=
  let m_screenSize := (v4.xres * v4.yres % 4294967296 * v4.bits_per_pixel) % 4294967296 / 8
  if m_screenSize ≠
      (toU32 (toInt32 (c.m_width * c.m_height)) * v4.bits_per_pixel) % 4294967296 / 8 then
    initFail c .screenSizeError [v3, orig] m_bpp m_screenSize v4 orig
  else if m_channelCount ≠ toU32 (toInt32 (toInt32 (c.m_width * c.m_height) * 3)) then
    initFail c .channelCountError [v3, orig] m_bpp m_screenSize v4 orig
  else if c.m_device = "/dev/fb0" ∧ dev.open_console = 0 then
    initFail c .consoleError [v3, orig] m_bpp m_screenSize v4 orig
  else if dev.mmap_failed then
    initFail c .mmapError [v3, orig] m_bpp m_screenSize v4 orig
  else if dev.malloc_null then
    initFail c .mallocError [v3, orig] m_bpp m_screenSize v4 orig
  else
    ⟨dev.base_Init, .baseInit, [v3], c, m_bpp, m_screenSize, v4, orig⟩

/-- The part of `Init` that follows the configuration loop. -/
def initDevice (dev : Device) (m_channelCount : Nat) (c : Config) : InitResult :=
  let blank : fb_bitfield := ⟨0, 0, 0⟩
  let v0 : fb_var_screeninfo := ⟨0, 0, 0, 0, 0, blank, blank, blank, blank, []⟩
  if dev.open_fb = 0 then initFail c .openError [] 24 0 v0 v0
  else if dev.get_vscreeninfo.1 ≠ 0 then
    initFail c .getInfoError [] 24 0 dev.get_vscreeninfo.2 v0
  else
    let vGet := dev.get_vscreeninfo.2
    let m_bpp := if vGet.bits_per_pixel = 32 then 24 else vGet.bits_per_pixel
    if m_bpp ≠ 24 ∧ m_bpp ≠ 16 then
      initFail c .bppError [] m_bpp 0 { vGet with bits_per_pixel := m_bpp } vGet
    else
      let v3 := vInfoRequested c vGet
      let orig := vInfoRestore vGet
      let put := dev.put_vscreeninfo v3
      if put.1 ≠ 0 then initFail c .setInfoError [v3] m_bpp 0 put.2 orig
      else if dev.get_fscreeninfo ≠ 0 then initFail c .fixedInfoError [v3] m_bpp 0 put.2 orig
      else initChecks dev m_channelCount c m_bpp v3 put.2 orig

/-- The method `FBMatrixOutput::Init(configStr)` of an object constructed with the
channel count `m_channelCount`: `none` when the configuration loop reads past the end
of `parts`. -/
def Init (split : String → Char → List String) (dev : Device) (m_channelCount : Nat)
    (configStr : String) : Option InitResult :=
  match parseConfig split configStr with
  | some c => some (initDevice dev m_channelCount c)
  | none => none

/-- Modelled from the spec: the string splitter `split` of `common.h`, whose code is
not among the sources; the string is cut at every occurrence of the separator. -/
def splitChars (sep : Char) : List Char → List Char → List String
  | [], cur => [String.mk cur.reverse]
  | c :: cs, cur =>
    if c = sep then String.mk cur.reverse :: splitChars sep cs []
    else splitChars sep cs (c :: cur)

/-- Modelled from the spec: `split(s, sep)` of `common.h` on a string. -/
def splitModel (s : String) (sep : Char) : List String := splitChars sep s.data []

/-! ## The main loop: `MainLoop` -/

/-- The values of the global `FPPstatus`. -/
inductive Status where
  | FPP_STATUS_IDLE
  | FPP_STATUS_PLAYLIST_PLAYING
  | FPP_STATUS_STOPPING_GRACEFULLY
deriving DecidableEq, Repr

/-- The values of the mode constants of `settings.h`, whose definitions are not among
the sources. -/
structure Modes where
  BRIDGE_MODE : Nat
  PLAYER_MODE : Nat
  REMOTE_MODE : Nat

/-- The calls to collaborators that the body of the loop makes. -/
inductive Call where
  | CommandProc
  | Bridge_ReceiveE131Data
  | Bridge_ReceiveDDPData
  | ProcessControlPacket
  | SetChannelOutputRefreshRate (rate : Int)
  | StartChannelOutputThread
  | playlist_Start
  | playlist_Process
  | playlist_Cleanup
  | ReLoadCurrentScheduleInfo
  | CheckIfShouldBePlayingNow
  | ScheduleProc
  | playlist_ProcessMedia
  | ForceChannelOutputNow
  | CheckGPIOInputs
deriving DecidableEq, Repr

/-- What the surroundings answer during one iteration of the loop: the result of
`select`, the readiness of the descriptors, the values the queries return, and, for
every call to a collaborator, how the call changes `FPPstatus`. -/
structure IterEnv where
  selectResult : Int
  errnoIsEINTR : Bool
  commandReady : Bool
  bridgeReady : Bool
  ddpReady : Bool
  controlReady : Bool
  e131NewData : Bool
  ddpNewData : Bool
  threadIsRunning : Bool
  fppMode : Nat
  usingMemoryMapInput : Bool
  testing : Bool
  alwaysTransmit : Bool
  E131BridgingInterval : Int
  mediaPlaying : Bool
  forceStop : Bool
  effect : Call → Status → Status

/-- The variables of `MainLoop` and the globals it uses, with the calls made so far. -/
structure LoopState where
  FPPstatus : Status
  prevFPPstatus : Status
  sleepms : Int
  runMainFPPDLoop : Int
  commandSock : Int
  bridgeSock : Int
  ddpSock : Int
  calls : List Call

/-- A call to a collaborator: it is recorded and may change `FPPstatus`. -/
def call (env : IterEnv) (c : Call) (s : LoopState) : LoopState :=
  { s with FPPstatus := env.effect c s.FPPstatus, calls := s.calls ++ [c] }

/-- The socket part of the body: `CommandProc`, the two bridge receivers and
`ProcessControlPacket`; the second component is `pushBridgeData`. -/
def dispatchSockets (env : IterEnv) (s : LoopState) : LoopState × Bool :=
  let pushBridgeData := false
  let s1 := if s.commandSock ≠ 0 ∧ env.commandReady then call env .CommandProc s else s
  let (s2, pushBridgeData) :=
    if s1.bridgeSock ≠ 0 ∧ env.bridgeReady then
      (call env .Bridge_ReceiveE131Data s1, pushBridgeData || env.e131NewData)
    else (s1, pushBridgeData)
  let (s3, pushBridgeData) :=
    if s2.ddpSock ≠ 0 ∧ env.ddpReady then
      (call env .Bridge_ReceiveDDPData s2, pushBridgeData || env.ddpNewData)
    else (s2, pushBridgeData)
  let s4 := if env.controlReady then call env .ProcessControlPacket s3 else s3
  (s4, pushBridgeData)

/-- The value of the local `E131BridgingInterval` after the test for `0`. -/
def bridgingInterval (env : IterEnv) : Int :=
  if env.E131BridgingInterval = 0 then 50 else env.E131BridgingInterval

/-- The condition under which the body starts the output thread. -/
def needOutputThread (K : Modes) (env : IterEnv) : Bool :=
  !env.threadIsRunning && decide (env.fppMode ≠ K.BRIDGE_MODE) &&
    (env.usingMemoryMapInput || env.testing || env.alwaysTransmit)

/-- The part of the body that starts the output thread. -/
def outputThreadCheck (K : Modes) (env : IterEnv) (s : LoopState) : LoopState :=
  if needOutputThread K env then
    call env .StartChannelOutputThread
      (call env (.SetChannelOutputRefreshRate (Int.tdiv 1000 (bridgingInterval env))) s)
  else s

/-- The test `FPPstatus` is `FPP_STATUS_PLAYLIST_PLAYING` or
`FPP_STATUS_STOPPING_GRACEFULLY`. -/
def isActive (st : Status) : Bool :=
  st = .FPP_STATUS_PLAYLIST_PLAYING || st = .FPP_STATUS_STOPPING_GRACEFULLY

/-- The first half of the player-mode block: `playlist->Start()` and
`playlist->Process()`. -/
def playerStart (env : IterEnv) (s : LoopState) : LoopState :=
  if isActive s.FPPstatus then
    let s1 :=
      if s.prevFPPstatus = .FPP_STATUS_IDLE then
        { call env .playlist_Start s with sleepms := 10000 }
      else s
    if isActive s1.FPPstatus then call env .playlist_Process s1 else s1
  else s

/-- The second half of the player-mode block: clean-up after a playlist, the
bookkeeping of `prevFPPstatus` and `scheduler->ScheduleProc()`. -/
def playerStop (env : IterEnv) (s : LoopState) : LoopState :=
  let reactivated : Int := 0
  let (s1, reactivated) :=
    if s.FPPstatus = .FPP_STATUS_IDLE then
      if isActive s.prevFPPstatus then
        let a := call env .playlist_Cleanup s
        let b := call env .ReLoadCurrentScheduleInfo a
        let c := if !env.forceStop then call env .CheckIfShouldBePlayingNow b else b
        if c.FPPstatus ≠ .FPP_STATUS_IDLE then (c, (1 : Int))
        else ({ c with sleepms := 50000 }, reactivated)
      else (s, reactivated)
    else (s, reactivated)
  let s2 :=
    if reactivated ≠ 0 then { s1 with prevFPPstatus := .FPP_STATUS_IDLE }
    else { s1 with prevFPPstatus := s1.FPPstatus }
  call env .ScheduleProc s2

/-- The player-mode block of the body. -/
def playerBlock (env : IterEnv) (s : LoopState) : LoopState :=
  playerStop env (playerStart env s)

/-- The mode-dependent part of the body. -/
def modeBlock (K : Modes) (env : IterEnv) (pushBridgeData : Bool) (s : LoopState) :
    LoopState :=
  if env.fppMode &&& K.PLAYER_MODE ≠ 0 then playerBlock env s
  else if env.fppMode = K.REMOTE_MODE then
    if env.mediaPlaying then call env .playlist_ProcessMedia s else s
  else if env.fppMode = K.BRIDGE_MODE ∧ pushBridgeData = true then
    call env .ForceChannelOutputNow s
  else s

/-- One pass through the body of the `while` loop of `MainLoop`. -/
def iteration (K : Modes) (env : IterEnv) (s : LoopState) : LoopState :=
  if env.selectResult < 0 then
    if env.errnoIsEINTR then s else { s with runMainFPPDLoop := 0 }
  else
    let (s1, pushBridgeData) := dispatchSockets env s
    let s2 := outputThreadCheck K env s1
    let s3 := modeBlock K env pushBridgeData s2
    call env .CheckGPIOInputs s3

/-- The calls made by one pass through the body from the state `s`. -/
def callsOf (K : Modes) (env : IterEnv) (s : LoopState) : List Call :=
  (iteration K env { s with calls := [] }).calls

/-- The state before pass `k` of a run of the loop in which `FPPstatus` is written from
outside between the passes: `ext k` is its value when pass `k` begins. -/
def runLoop (K : Modes) (envs : Nat → IterEnv) (ext : Nat → Status) (s0 : LoopState) :
    Nat → LoopState
  | 0 => { s0 with FPPstatus := ext 0 }
  | k + 1 => { iteration K (envs k) (runLoop K envs ext s0 k) with FPPstatus := ext (k + 1) }

/-! ## Observations and reference definitions used in the statements -/

/-- The first `n` bytes of a buffer. -/
def bytes (n : Nat) (buf : Nat → Nat) : List Nat := (List.range n).map buf

/-- The diff snapshot: the first `m_channelCount` bytes of `m_lastFrame`. -/
def snapshot (o : FBMatrixOutput) : List Nat := bytes o.m_channelCount o.m_lastFrame

/-- The bytes of row `y` of the mapped surface: `m_width * m_bpp / 8` bytes from the
offset `y * (m_width * m_bpp / 8)`. -/
def surfaceRow (o : FBMatrixOutput) (y : Nat) : List Nat :=
  (List.range (o.m_width * o.m_bpp / 8)).map
    (fun i => o.m_fbp (((y * (o.m_width * o.m_bpp / 8) + i : Nat) : Int)))

/-- The three bytes of pixel `p` of a 24-bit mapped surface. -/
def pixelBytes (o : FBMatrixOutput) (p : Nat) : List Nat :=
  [o.m_fbp ((3 * p : Nat) : Int), o.m_fbp ((3 * p + 1 : Nat) : Int),
   o.m_fbp ((3 * p + 2 : Nat) : Int)]

/-- The 16-bit lookup cube that `Init` builds for the RGB565 bit fields it requests. -/
def cube565 : Nat → Nat → Nat → Nat :=
  rgb565map ⟨0, 0, 0, 0, 16, ⟨11, 5, 0⟩, ⟨5, 6, 0⟩, ⟨0, 5, 0⟩, ⟨0, 0, 0⟩, []⟩

/-- A surface of the given geometry as a successful `Init` leaves it, with a blank
mapped frame buffer, the given snapshot and the RGB565 cube. -/
def mkSurface (w h bpp : Nat) (rgb inv : Bool) (last : List Nat) : FBMatrixOutput :=
  { m_width := w, m_height := h, m_useRGB := rgb, m_inverted := inv, m_bpp := bpp,
    m_screenSize := w * h * bpp / 8, m_channelCount := w * h * 3, m_fbp := blankFb,
    m_lastFrame := ofList last, m_rgb565map := cube565 }

/-- The object that `RawSendData` works on after the `Init` that left `r`, for given
contents of the mapped frame buffer and of the snapshot buffer. -/
def objectOf (r : InitResult) (m_channelCount : Nat) (fbp : Int → Nat)
    (lastFrame : Nat → Nat) : FBMatrixOutput :=
  { m_width := r.config.m_width.toNat, m_height := r.config.m_height.toNat,
    m_useRGB := decide (r.config.m_useRGB ≠ 0),
    m_inverted := decide (r.config.m_inverted ≠ 0),
    m_bpp := r.m_bpp, m_screenSize := r.m_screenSize, m_channelCount := m_channelCount,
    m_fbp := fbp, m_lastFrame := lastFrame, m_rgb565map := rgb565map r.m_vInfo }

/-- The destination row `drow` of the source row `y`: it starts at `0`, or at
`m_height - 1` when inverted, and steps by one per source row. -/
def drowOf (o : FBMatrixOutput) (y : Nat) : Int :=
  if o.m_inverted then (o.m_height : Int) - 1 - y else y

/-- Straightforward renderer, from the specification: the cube word of the three bytes
of pixel `i` of the frame. -/
def specWord16 (o : FBMatrixOutput) (ch : Nat → Nat) (i : Nat) : Nat :=
  if o.m_useRGB then
    o.m_rgb565map (ch (3 * i) >>> 3) (ch (3 * i + 1) >>> 2) (ch (3 * i + 2) >>> 3)
  else
    o.m_rgb565map (ch (3 * i + 2) >>> 3) (ch (3 * i + 1) >>> 2) (ch (3 * i) >>> 3)

/-- Straightforward renderer, from the specification: pixel `(x, y)` is written at the
byte offset `drow(y) * width * 2 + 2 * x` when its three bytes differ from the
snapshot's, and is left alone otherwise. -/
def specPixel16 (o : FBMatrixOutput) (ch : Nat → Nat) (y x : Nat) (fb : Int → Nat) :
    Int → Nat :=
  let i := y * o.m_width + x
  if [ch (3 * i), ch (3 * i + 1), ch (3 * i + 2)] ≠
      [o.m_lastFrame (3 * i), o.m_lastFrame (3 * i + 1), o.m_lastFrame (3 * i + 2)] then
    store16 fb (drowOf o y * ((o.m_width * 2 : Nat) : Int) + ((2 * x : Nat) : Int))
      (specWord16 o ch i)
  else fb

/-- Straightforward renderer, from the specification: every pixel of every row, each
with its own cursor positions. -/
def render16Spec (o : FBMatrixOutput) (ch : Nat → Nat) : Int → Nat :=
  (List.range o.m_height).foldl
    (fun fb y => (List.range o.m_width).foldl (fun fb1 x => specPixel16 o ch y x fb1) fb)
    o.m_fbp

/-- The all-red frame of a 16 by 16 surface: the bytes `255, 0, 0` for each of the 256
pixels. -/
def allRed : Nat → Nat := fun i => if i < 768 then (if i % 3 = 0 then 255 else 0) else 0

/-- A frame-buffer device in the given video mode that grants every request and leaves
the committed structure as it is. -/
def plainDevice (xres yres bpp : Nat) : Device :=
  { open_fb := 3,
    get_vscreeninfo := (0, ⟨xres, yres, xres, yres, bpp, ⟨16, 8, 0⟩, ⟨8, 8, 0⟩, ⟨0, 8, 0⟩,
      ⟨0, 0, 0⟩, []⟩),
    put_vscreeninfo := fun v => (0, v),
    get_fscreeninfo := 0,
    open_console := 4,
    mmap_failed := false,
    malloc_null := false,
    base_Init := 1 }

/-- The status written from outside in the scenario: `FPP_STATUS_PLAYLIST_PLAYING` from
pass `N` to pass `N + 4`, `FPP_STATUS_IDLE` before and after. -/
def scenarioStatus (N : Nat) (k : Nat) : Status :=
  if N ≤ k ∧ k < N + 5 then .FPP_STATUS_PLAYLIST_PLAYING else .FPP_STATUS_IDLE

/-- The state of `MainLoop` when the loop is entered with `FPPstatus` idle. -/
def idleEntry (commandSock bridgeSock ddpSock : Int) : LoopState :=
  { FPPstatus := .FPP_STATUS_IDLE, prevFPPstatus := .FPP_STATUS_IDLE, sleepms := 50000,
    runMainFPPDLoop := 1, commandSock := commandSock, bridgeSock := bridgeSock,
    ddpSock := ddpSock, calls := [] }

/-- The mode constants as `settings.h` of Falcon Player defines them. -/
def fppModes : Modes := { BRIDGE_MODE := 1, PLAYER_MODE := 2, REMOTE_MODE := 8 }

/-- An iteration in player mode in which no descriptor is ready, no collaborator changes
`FPPstatus` and nothing asks for the output thread. -/
def quietPlayerEnv : IterEnv :=
  { selectResult := 0, errnoIsEINTR := false, commandReady := false, bridgeReady := false,
    ddpReady := false, controlReady := false, e131NewData := false, ddpNewData := false,
    threadIsRunning := false, fppMode := 2, usingMemoryMapInput := false, testing := false,
    alwaysTransmit := false, E131BridgingInterval := 0, mediaPlaying := false,
    forceStop := false, effect := fun _ st => st }

/-- The configuration that the string `layout=16x16;colorOrder=BGR;invert=0` stands
for. -/
def scenarioConfig : Config :=
  { m_layout := "16x16", m_width := 16, m_height := 16, m_useRGB := 0, m_inverted := 0,
    m_device := "/dev/fb0" }

/-- The configuration that the string `layout=2x2` stands for. -/
def layout2x2 : Config := { m_layout := "2x2", m_width := 2, m_height := 2 }

/-- The calls of `CommandProc`, of the bridge receivers and of `ProcessControlPacket`
that a pass makes, in order. -/
def socketCalls (env : IterEnv) (s : LoopState) : List Call :=
  (if s.commandSock ≠ 0 ∧ env.commandReady = true then [Call.CommandProc] else []) ++
  (if s.bridgeSock ≠ 0 ∧ env.bridgeReady = true then [Call.Bridge_ReceiveE131Data] else []) ++
  (if s.ddpSock ≠ 0 ∧ env.ddpReady = true then [Call.Bridge_ReceiveDDPData] else []) ++
  (if env.controlReady = true then [Call.ProcessControlPacket] else [])

/-- The calls a pass makes for the output thread. -/
def threadCalls (K : Modes) (env : IterEnv) : List Call :=
  if needOutputThread K env = true then
    [Call.SetChannelOutputRefreshRate (Int.tdiv 1000 (bridgingInterval env)),
     Call.StartChannelOutputThread]
  else []

/-- A call that concerns the output thread. -/
def Call.isThreadCall : Call → Bool
  | .SetChannelOutputRefreshRate _ => true
  | .StartChannelOutputThread => true
  | _ => false

/-- The calls that the player-mode block makes when no collaborator changes the status
and no stop is forced, from the status and the previous status. -/
def playerCalls (st prev : Status) : List Call :=
  (if isActive st = true then
    (if prev = .FPP_STATUS_IDLE then [Call.playlist_Start] else []) ++ [Call.playlist_Process]
   else []) ++
  (if st = .FPP_STATUS_IDLE ∧ isActive prev = true then
    [Call.playlist_Cleanup, Call.ReLoadCurrentScheduleInfo, Call.CheckIfShouldBePlayingNow]
   else []) ++ [Call.ScheduleProc]

/-- The calls of `l2` are those of `l1` followed by calls that satisfy `P`. -/
def Extends (P : Call → Prop) (l1 l2 : List Call) : Prop :=
  ∃ m, l2 = l1 ++ m ∧ ∀ c ∈ m, P c

/-! ## Invariants of the rendering loops -/

/-- The state of the 16-bit path after `n` pixels none of which differed from the
snapshot: the frame buffer is untouched and the cursors `sR` and `l` stand at pixel
`n`. -/
def Untouched16 (fb0 : Int → Nat) (n : Nat) (c : Cur16) : Prop :=
  c.fb = fb0 ∧ c.sR = 3 * n ∧ c.l = 3 * n

/-- The byte offset of byte `c` of the pixel in column `x` of the destination row of
source row `y` on a 24-bit surface. -/
def addr24 (o : FBMatrixOutput) (y x c : Nat) : Int :=
  drowOf o y * ((3 * o.m_width : Nat) : Int) + ((3 * x + c : Nat) : Int)

/-- The test that the 24-bit path with `m_useRGB` makes for pixel `p`: the first three
bytes of the snapshot against the frame bytes `3 * p + 2 .. 3 * p + 4`. -/
def changed24 (o : FBMatrixOutput) (ch : Nat → Nat) (p : Nat) : Bool :=
  decide (memcmp o.m_lastFrame 0 ch (3 * p + 2) 3 ≠ 0)

/-- The frame buffer of the 24-bit path with `m_useRGB` after `n` pixels: the pixels
done hold the frame's bytes in reverse order when their test succeeded, every other
pixel holds what it held before. -/
def Done24 (o : FBMatrixOutput) (ch : Nat → Nat) (fb0 : Int → Nat) (n : Nat)
    (fb : Int → Nat) : Prop :=
  ∀ y x c, y < o.m_height → x < o.m_width → c < 3 →
    fb (addr24 o y x c) =
      if y * o.m_width + x < n ∧ changed24 o ch (y * o.m_width + x) = true then
        ch (3 * (y * o.m_width + x) + (2 - c))
      else fb0 (addr24 o y x c)

/-- The cursors of the 24-bit path with `m_useRGB` before pixel `j` of source row
`y`. -/
def At24 (o : FBMatrixOutput) (y j : Nat) (c : Cur24) : Prop :=
  c.sR = 3 * (y * o.m_width + j) ∧ c.sG = 3 * (y * o.m_width + j) + 1 ∧
  c.sB = 3 * (y * o.m_width + j) + 2 ∧ c.l = 0 ∧ c.drow = drowOf o y ∧
  c.dB = addr24 o y j 0 ∧ c.dG = addr24 o y j 1 ∧ c.dR = addr24 o y j 2

/-- The cursors of the 24-bit path with `m_useRGB` before source row `y`. -/
def RowStart24 (o : FBMatrixOutput) (y : Nat) (c : Cur24) : Prop :=
  c.sR = 3 * (y * o.m_width) ∧ c.sG = 3 * (y * o.m_width) + 1 ∧
  c.sB = 3 * (y * o.m_width) + 2 ∧ c.l = 0 ∧ c.drow = drowOf o y

/-- Pixel `p` of the frame differs from pixel `p` of the snapshot. -/
def changed16 (o : FBMatrixOutput) (ch : Nat → Nat) (p : Nat) : Prop :=
  memcmp o.m_lastFrame (3 * p) ch (3 * p) 3 ≠ 0

/-- The 16-bit path before pixel `j` of source row `y`, run side by side with the
straightforward renderer: the frame buffers agree, and the deferred cursors are in
place unless a pixel has been skipped. -/
def Sim16 (o : FBMatrixOutput) (ch : Nat → Nat) (y j : Nat) (c : Cur16)
    (s : Int → Nat) : Prop :=
  c.fb = s ∧ c.sR = 3 * (y * o.m_width + j) ∧ c.l = 3 * (y * o.m_width + j) ∧
  c.drow = drowOf o y ∧
  (c.skipped = 0 → c.sG = 3 * (y * o.m_width + j) + 1 ∧ c.sB = 3 * (y * o.m_width + j) + 2 ∧
    c.d = drowOf o y * ((o.m_width * 2 : Nat) : Int) + ((2 * j : Nat) : Int)) ∧
  (c.skipped ≠ 0 → ∃ q, q < y * o.m_width + j ∧ ¬ changed16 o ch q)

/-- The 16-bit path before source row `y`, run side by side with the straightforward
renderer. -/
def RowSim16 (o : FBMatrixOutput) (ch : Nat → Nat) (y : Nat) (c : Cur16)
    (s : Int → Nat) : Prop :=
  c.fb = s ∧ c.sR = 3 * (y * o.m_width) ∧ c.l = 3 * (y * o.m_width) ∧
  c.drow = drowOf o y ∧
  (c.skipped = 0 → c.sG = 3 * (y * o.m_width) + 1 ∧ c.sB = 3 * (y * o.m_width) + 2) ∧
  (c.skipped ≠ 0 → ∃ q, q < y * o.m_width ∧ ¬ changed16 o ch q)

/-! ## Further observations of the main loop, the cube and the render -/

/-- An iteration in bridge mode in which the bridge socket is ready and the E1.31
receiver reports new data. -/
def bridgeDataEnv : IterEnv :=
  { selectResult := 1, errnoIsEINTR := false, commandReady := false, bridgeReady := true,
    ddpReady := false, controlReady := false, e131NewData := true, ddpNewData := false,
    threadIsRunning := false, fppMode := 1, usingMemoryMapInput := false, testing := false,
    alwaysTransmit := false, E131BridgingInterval := 0, mediaPlaying := false,
    forceStop := false, effect := fun _ st => st }

/-- The second half of the player-mode block up to the point where `prevFPPstatus` is
updated, before `scheduler->ScheduleProc()`. -/
def playerUpdate (env : IterEnv) (s : LoopState) : LoopState :=
  let reactivated : Int := 0
  let (s1, reactivated) :=
    if s.FPPstatus = .FPP_STATUS_IDLE then
      if isActive s.prevFPPstatus then
        let a := call env .playlist_Cleanup s
        let b := call env .ReLoadCurrentScheduleInfo a
        let c := if !env.forceStop then call env .CheckIfShouldBePlayingNow b else b
        if c.FPPstatus ≠ .FPP_STATUS_IDLE then (c, (1 : Int))
        else ({ c with sleepms := 50000 }, reactivated)
      else (s, reactivated)
    else (s, reactivated)
  if reactivated ≠ 0 then { s1 with prevFPPstatus := .FPP_STATUS_IDLE }
  else { s1 with prevFPPstatus := s1.FPPstatus }

/-- The state in which a pass reaches the mode-dependent part of the body. -/
def blockStart (K : Modes) (env : IterEnv) (s : LoopState) : LoopState :=
  outputThreadCheck K env (dispatchSockets env s).1

/-- The state at the point of a pass where `prevFPPstatus` is updated: there is such a
point when the pass gets past `select` and the mode is a player mode. -/
def updatePoint (K : Modes) (env : IterEnv) (s : LoopState) : Option LoopState :=
  if env.selectResult < 0 then none
  else if env.fppMode &&& K.PLAYER_MODE ≠ 0 then
    some (playerUpdate env (playerStart env (blockStart K env s)))
  else none

/-- The state before pass `k` of a run of the loop in which only the collaborators
change `FPPstatus`. -/
def runPasses (K : Modes) (envs : Nat → IterEnv) (s0 : LoopState) : Nat → LoopState
  | 0 => s0
  | k + 1 => iteration K (envs k) (runPasses K envs s0 k)

/-- The state of `MainLoop` when the first pass begins: `prevFPPstatus` holds the status
at loop entry, `sleepms` is 50000, and `FPPstatus` is what the calls made before the
loop (`CheckIfShouldBePlayingNow` among them) left. -/
def loopEntry (entryStatus firstStatus : Status) (commandSock bridgeSock ddpSock : Int) :
    LoopState :=
  { FPPstatus := firstStatus, prevFPPstatus := entryStatus, sleepms := 50000,
    runMainFPPDLoop := 1, commandSock := commandSock, bridgeSock := bridgeSock,
    ddpSock := ddpSock, calls := [] }

/-- An iteration in player mode in which `playlist->Start()` puts the status back to
idle and no other collaborator changes it. -/
def startFailsEnv : IterEnv :=
  { quietPlayerEnv with
    effect := fun c st => if c = .playlist_Start then .FPP_STATUS_IDLE else st }

/-- What the loop keeps true of the wait timeout between passes: it is 10000 or 50000,
and it is 10000 when the previous status is playing or stopping gracefully. -/
def TimeoutInv (s : LoopState) : Prop :=
  (s.sleepms = 10000 ∨ s.sleepms = 50000) ∧
  (isActive s.prevFPPstatus = true → s.sleepms = 10000)

/-- A screen-info structure at 16 bits with the given offsets and lengths of the red,
green and blue bit fields. -/
def fieldsInfo (ro rl go gl bo bl : Nat) : fb_var_screeninfo :=
  ⟨0, 0, 0, 0, 16, ⟨ro, rl, 0⟩, ⟨go, gl, 0⟩, ⟨bo, bl, 0⟩, ⟨0, 0, 0⟩, []⟩

/-- Index `i` lies in the frame, and in the snapshot: both have `m_channelCount`
bytes. -/
def inFrame (o : FBMatrixOutput) (i : Nat) : Bool := decide (i < o.m_channelCount)

/-- Offset `a` lies in the mapped surface of `m_screenSize` bytes. -/
def inSurface (o : FBMatrixOutput) (a : Int) : Bool :=
  decide (0 ≤ a ∧ a < (o.m_screenSize : Int))

/-- Every one of the `n` passes of a loop with body `step` passes the check `safe` in
the state in which it begins. -/
def loopSafe {σ : Type} (step : σ → σ) (safe : σ → Bool) : Nat → σ → Bool
  | 0, _ => true
  | n + 1, s => safe s && loopSafe step safe n (step s)

/-- The accesses of the body of the inner loop of the 16-bit path lie in their buffers:
the three bytes `memcmp` reads from the snapshot at `l` and from the frame at `sR`, and,
when they differ, the bytes read at `sR`, `sG` and `sB` after the catch-up and the two
bytes written at `d`. -/
def pixel16Safe (o : FBMatrixOutput) (ch : Nat → Nat) (c : Cur16) : Bool :=
  inFrame o (c.l + 2) && inFrame o (c.sR + 2) &&
  (if memcmp o.m_lastFrame c.l ch c.sR 3 ≠ 0 then
    inFrame o (catchUp16 c).sR && inFrame o (catchUp16 c).sG && inFrame o (catchUp16 c).sB &&
      inSurface o (catchUp16 c).d && inSurface o ((catchUp16 c).d + 1)
   else true)

/-- The accesses of one pass of the outer loop of the 16-bit path lie in their
buffers. -/
def row16Safe (o : FBMatrixOutput) (ch : Nat → Nat) (ostride : Int) (c : Cur16) : Bool :=
  loopSafe (pixel16 o ch) (pixel16Safe o ch) o.m_width { c with d := c.drow * ostride }

/-- The accesses of the body of the inner loop of the 24-bit path with `m_useRGB` lie in
their buffers: the three bytes `memcmp` reads from the snapshot at `l` and from the frame
at `sB`, and, when they differ, the bytes read at `sR`, `sG`, `sB` and the bytes written
at `dR`, `dG`, `dB`. -/
def pixel24Safe (o : FBMatrixOutput) (ch : Nat → Nat) (c : Cur24) : Bool :=
  inFrame o (c.l + 2) && inFrame o (c.sB + 2) &&
  (if memcmp o.m_lastFrame c.l ch c.sB 3 ≠ 0 then
    inFrame o c.sR && inFrame o c.sG && inFrame o c.sB &&
      inSurface o c.dR && inSurface o c.dG && inSurface o c.dB
   else true)

/-- The accesses of one pass of the outer loop of the 24-bit path with `m_useRGB` lie in
their buffers. -/
def row24Safe (o : FBMatrixOutput) (ch : Nat → Nat) (ostride : Int) (c : Cur24) : Bool :=
  loopSafe (pixel24 o ch) (pixel24Safe o ch) o.m_width
    { c with dR := c.drow * ostride + 2, dG := c.drow * ostride + 1,
             dB := c.drow * ostride + 0 }

/-- The `memcpy(dst, src, istride)` of the inverted native path reads inside the frame
and writes inside the mapped surface. -/
def rowInvSafe (o : FBMatrixOutput) (istride : Nat) (c : CurInv) : Bool :=
  decide (istride = 0) ||
    (decide (c.src + istride ≤ o.m_channelCount) && decide (0 ≤ c.dst) &&
      decide (c.dst + (istride : Int) ≤ (o.m_screenSize : Int)))

/-- Every byte that the rendering part of `RawSendData(channelData)` reads from the
frame or from the snapshot lies below `m_channelCount`, and every byte it writes to the
mapped frame buffer lies in the mapped surface. -/
def renderSafe (o : FBMatrixOutput) (channelData : Nat → Nat) : Bool :=
  let ostride : Int := ((o.m_width * o.m_bpp / 8 : Nat) : Int)
  let srow : Nat := 0
  let drow : Int := if o.m_inverted then (o.m_height : Int) - 1 else 0
  if o.m_bpp = 16 then
    loopSafe (row16 o channelData ostride) (row16Safe o channelData ostride) o.m_height
      { fb := o.m_fbp, sR := 0, sG := 1, sB := 2, l := 0, d := 0, skipped := 0,
        srow := srow, drow := drow }
  else if o.m_useRGB then
    loopSafe (row24 o channelData ostride) (row24Safe o channelData ostride) o.m_height
      { fb := o.m_fbp, sR := 0, sG := 1, sB := 2, l := 0, dR := 0, dG := 0, dB := 0,
        srow := srow, drow := drow }
  else if o.m_inverted then
    let istride := o.m_width * 3
    loopSafe (rowInv channelData istride ostride) (rowInvSafe o istride) o.m_height
      { fb := o.m_fbp, src := 0, dst := ostride * ((o.m_height : Int) - 1) }
  else
    decide (o.m_screenSize ≤ o.m_channelCount)

/-- The method `RawSendData` with checked indexing: `none` when an access of the render
falls outside its buffer (undefined behaviour in the source, which may not reach the
final `memcpy` and the `return`), and otherwise the object after the call and the `int`
returned. The final `memcpy(m_lastFrame, channelData, m_channelCount)` reads the
`m_channelCount` bytes of the frame and writes the `m_channelCount` bytes of the
snapshot, so it has no check of its own. -/
def RawSendDataChecked (o : FBMatrixOutput) (channelData : Nat → Nat) :
    Option (FBMatrixOutput × Int) :=
  if renderSafe o channelData then some (RawSendData o channelData) else none

/-- The cursors of the 16-bit path when the first source row begins. -/
def start16 (o : FBMatrixOutput) : Cur16 :=
  { fb := o.m_fbp, sR := 0, sG := 1, sB := 2, l := 0, d := 0, skipped := 0, srow := 0,
    drow := if o.m_inverted then (o.m_height : Int) - 1 else 0 }

/-- A valid surface: a width and a height of at least 1, 16 or 24 bits per pixel, and
the channel count and the screen size that `Init` requires of them. -/
def ValidSurface (o : FBMatrixOutput) : Prop :=
  1 ≤ o.m_width ∧ 1 ≤ o.m_height ∧ (o.m_bpp = 16 ∨ o.m_bpp = 24) ∧
  o.m_channelCount = o.m_width * o.m_height * 3 ∧
  o.m_screenSize = o.m_width * o.m_height * o.m_bpp / 8

/-! # Theorems -/

/-! ## Rendering -/

/-- C1, as amended. On every render path, when every access of the render lies inside
the frame, the snapshot and the mapped surface, the call `RawSendData` with checked
indexing yields a result. The `int` returned is `m_channelCount` converted to `int`,
which is `m_channelCount` itself when that is below 2^31; the channel count is unchanged;
and the diff snapshot is, byte for byte, the frame that was passed in. -/
theorem checked_RawSendData_returns_channelCount_and_snapshots_frame (o : FBMatrixOutput)
    (channelData : Nat → Nat) (hsafe : renderSafe o channelData = true) :
    ∃ r : FBMatrixOutput × Int, RawSendDataChecked o channelData = some r ∧
      r.2 = toInt32 (o.m_channelCount : Int) ∧
      (o.m_channelCount < 2147483648 → r.2 = (o.m_channelCount : Int)) ∧
      r.1.m_channelCount = o.m_channelCount ∧
      snapshot r.1 = bytes o.m_channelCount channelData := by
  refine ⟨RawSendData o channelData, ?_, rfl, ?_, rfl, ?_⟩
  · unfold RawSendDataChecked
    rw [if_pos hsafe]
  · intro hlt
    show toInt32 (o.m_channelCount : Int) = _
    unfold toInt32
    omega
  · simp only [snapshot, bytes, RawSendData]
    apply List.map_congr_left
    intro i hi
    have hlt := List.mem_range.mp hi
    simp only [memcpy, hlt, if_true]

/-- C1, witness: a 2 by 1 surface at 16 bits with a black snapshot and a frame whose two
pixels both differ from it, a 2 by 1 surface at 24 bits on the native path, and a 1 by 2
surface at 24 bits on the inverted native path. Every access lies in its buffer, and the
checked call returns 6, the channel count, with the frame as the snapshot. -/
theorem checked_RawSendData_returns_channelCount_and_snapshots_frame_witness :
    (renderSafe (mkSurface 2 1 16 true false []) (ofList [255, 0, 0, 0, 255, 0]) = true ∧
      ∃ r : FBMatrixOutput × Int,
        RawSendDataChecked (mkSurface 2 1 16 true false [])
          (ofList [255, 0, 0, 0, 255, 0]) = some r ∧
        r.2 = toInt32 ((mkSurface 2 1 16 true false []).m_channelCount : Int) ∧
        ((mkSurface 2 1 16 true false []).m_channelCount < 2147483648 →
          r.2 = ((mkSurface 2 1 16 true false []).m_channelCount : Int)) ∧
        r.1.m_channelCount = (mkSurface 2 1 16 true false []).m_channelCount ∧
        snapshot r.1 = bytes (mkSurface 2 1 16 true false []).m_channelCount
          (ofList [255, 0, 0, 0, 255, 0])) ∧
    (renderSafe (mkSurface 2 1 24 false false []) (ofList [1, 2, 3, 4, 5, 6]) = true ∧
      ∃ r : FBMatrixOutput × Int,
        RawSendDataChecked (mkSurface 2 1 24 false false [])
          (ofList [1, 2, 3, 4, 5, 6]) = some r ∧
        r.2 = toInt32 ((mkSurface 2 1 24 false false []).m_channelCount : Int) ∧
        ((mkSurface 2 1 24 false false []).m_channelCount < 2147483648 →
          r.2 = ((mkSurface 2 1 24 false false []).m_channelCount : Int)) ∧
        r.1.m_channelCount = (mkSurface 2 1 24 false false []).m_channelCount ∧
        snapshot r.1 = bytes (mkSurface 2 1 24 false false []).m_channelCount
          (ofList [1, 2, 3, 4, 5, 6])) ∧
    (renderSafe (mkSurface 1 2 24 false true []) (ofList [1, 2, 3, 4, 5, 6]) = true ∧
      ∃ r : FBMatrixOutput × Int,
        RawSendDataChecked (mkSurface 1 2 24 false true [])
          (ofList [1, 2, 3, 4, 5, 6]) = some r ∧
        r.2 = toInt32 ((mkSurface 1 2 24 false true []).m_channelCount : Int) ∧
        ((mkSurface 1 2 24 false true []).m_channelCount < 2147483648 →
          r.2 = ((mkSurface 1 2 24 false true []).m_channelCount : Int)) ∧
        r.1.m_channelCount = (mkSurface 1 2 24 false true []).m_channelCount ∧
        snapshot r.1 = bytes (mkSurface 1 2 24 false true []).m_channelCount
          (ofList [1, 2, 3, 4, 5, 6])) :=
  ⟨⟨by decide, checked_RawSendData_returns_channelCount_and_snapshots_frame
      (mkSurface 2 1 16 true false []) (ofList [255, 0, 0, 0, 255, 0]) (by decide)⟩,
   ⟨by decide, checked_RawSendData_returns_channelCount_and_snapshots_frame
      (mkSurface 2 1 24 false false []) (ofList [1, 2, 3, 4, 5, 6]) (by decide)⟩,
   ⟨by decide, checked_RawSendData_returns_channelCount_and_snapshots_frame
      (mkSurface 1 2 24 false true []) (ofList [1, 2, 3, 4, 5, 6]) (by decide)⟩⟩

/-- C2, at the failing input. A 2 by 1 surface at 24 bits with `colorOrder=RGB`, blank,
with the snapshot `3,4,5,0,0,0`: the first render of the frame `1,2,3,4,5,6` leaves the
surface `0,0,0,6,5,4`, and the second render of the same frame changes it to
`3,2,1,6,5,4`. -/
theorem second_render_of_same_frame_changes_remapped_surface :
    surface (RawSendData (mkSurface 2 1 24 true false [3, 4, 5, 0, 0, 0])
      (ofList [1, 2, 3, 4, 5, 6])).1 = [0, 0, 0, 6, 5, 4] ∧
    surface (RawSendData (RawSendData (mkSurface 2 1 24 true false [3, 4, 5, 0, 0, 0])
      (ofList [1, 2, 3, 4, 5, 6])).1 (ofList [1, 2, 3, 4, 5, 6])).1 = [3, 2, 1, 6, 5, 4] := by
  decide

/-- C3, at the failing inputs. On a 2 by 1 surface at 24 bits with `colorOrder=RGB`:
with the snapshot `3,4,5,0,0,0` and the frame `1,2,3,4,5,6`, pixel 0 differs from the
snapshot and yet its bytes on the surface stay `0,0,0`; with the snapshot equal to the
frame `1,2,3,4,5,6`, no pixel differs and yet both pixels are written. -/
theorem remapped_path_compares_against_the_wrong_bytes :
    (bytes 3 (ofList [1, 2, 3, 4, 5, 6]) ≠ bytes 3 (ofList [3, 4, 5, 0, 0, 0]) ∧
      surface (RawSendData (mkSurface 2 1 24 true false [3, 4, 5, 0, 0, 0])
        (ofList [1, 2, 3, 4, 5, 6])).1 = [0, 0, 0, 6, 5, 4]) ∧
    surface (RawSendData (mkSurface 2 1 24 true false [1, 2, 3, 4, 5, 6])
      (ofList [1, 2, 3, 4, 5, 6])).1 = [3, 2, 1, 6, 5, 4] := by
  decide

/-- C4, at the failing input. A 4 by 1 surface at 16 bits, blank, with a black snapshot
and the frame black, white, red, black: the straightforward renderer puts the red word
at the byte offset 4, the 16-bit path of `RawSendData` puts it at the byte offset 6. -/
theorem deferred_skip_path_differs_from_straightforward_renderer :
    bytes 8 (fun i => render16Spec (mkSurface 4 1 16 true false [])
      (ofList [0, 0, 0, 255, 255, 255, 255, 0, 0, 0, 0, 0]) (i : Int)) =
      [0, 0, 255, 255, 0, 248, 0, 0] ∧
    surface (RawSendData (mkSurface 4 1 16 true false [])
      (ofList [0, 0, 0, 255, 255, 255, 255, 0, 0, 0, 0, 0])).1 =
      [0, 0, 255, 255, 0, 0, 0, 248] := by
  decide

/-- C5, at the failing input. A 1 by 3 surface at 16 bits, blank, with a black snapshot
and the frame black, white, black: row 2 of the render with `inverted=false` holds the
white word, row 0 of the render with `inverted=true` is blank. -/
theorem inversion_law_fails_on_16_bit_path :
    surfaceRow (RawSendData (mkSurface 1 3 16 true false [])
      (ofList [0, 0, 0, 255, 255, 255, 0, 0, 0])).1 2 = [255, 255] ∧
    surfaceRow (RawSendData (mkSurface 1 3 16 true true [])
      (ofList [0, 0, 0, 255, 255, 255, 0, 0, 0])).1 (3 - 1 - 2) = [0, 0] := by
  decide

/-- A bulk copy to the start of the mapped frame buffer puts byte `i` of the source at
offset `i`. -/
theorem memcpyFb_zero_apply (dst : Int → Nat) (src : Nat → Nat) (n i : Nat) (h : i < n) :
    memcpyFb dst 0 src 0 n (i : Int) = src i := by
  have h1 : (0 : Int) ≤ (i : Int) ∧ (i : Int) < 0 + (n : Int) := by omega
  simp only [memcpyFb, h1, and_self, if_true]
  congr 1
  omega

/-! ### The 16-bit path on an unchanged frame -/

/-- `memcmp` returns `0` exactly when the `n` bytes agree. -/
theorem memcmp_eq_zero_iff (a b : Nat → Nat) (n i j : Nat) :
    memcmp a i b j n = 0 ↔ ∀ k, k < n → a (i + k) = b (j + k) := by
  induction n generalizing i j with
  | zero => simp [memcmp]
  | succ n ih =>
    unfold memcmp
    by_cases h : a i = b j
    · rw [if_pos h, ih]
      constructor
      · intro hk k hlt
        cases k with
        | zero => simpa using h
        | succ k =>
          have := hk k (by omega)
          rw [show i + (k + 1) = i + 1 + k by omega, show j + (k + 1) = j + 1 + k by omega]
          exact this
      · intro hk k hlt
        have := hk (k + 1) (by omega)
        rw [show i + 1 + k = i + (k + 1) by omega, show j + 1 + k = j + (k + 1) by omega]
        exact this
    · rw [if_neg h]
      constructor
      · intro h0
        exfalso
        apply h
        omega
      · intro hk
        exact absurd (by simpa using hk 0 (by omega)) h

theorem pixel16_untouched (o : FBMatrixOutput) (ch : Nat → Nat) (fb0 : Int → Nat)
    (n : Nat) (c : Cur16) (hc : Untouched16 fb0 n c)
    (heq : ∀ k, k < 3 → o.m_lastFrame (3 * n + k) = ch (3 * n + k)) :
    Untouched16 fb0 (n + 1) (pixel16 o ch c) := by
  obtain ⟨h1, h2, h3⟩ := hc
  have hz : memcmp o.m_lastFrame c.l ch c.sR 3 = 0 := by
    rw [memcmp_eq_zero_iff, h2, h3]
    exact heq
  simp only [pixel16, hz, ne_eq, not_true_eq_false, if_false]
  refine ⟨h1, ?_, ?_⟩
  · show c.sR + 3 = 3 * (n + 1)
    omega
  · show c.l + 3 = 3 * (n + 1)
    omega

theorem pixel16_iterate_untouched (o : FBMatrixOutput) (ch : Nat → Nat) (fb0 : Int → Nat)
    (total : Nat) (heq : ∀ i, i < 3 * total → o.m_lastFrame i = ch i) (j n : Nat)
    (c : Cur16) (hc : Untouched16 fb0 n c) (hle : n + j ≤ total) :
    Untouched16 fb0 (n + j) ((pixel16 o ch)^[j] c) := by
  induction j with
  | zero => simpa using hc
  | succ j ih =>
    rw [Function.iterate_succ_apply']
    have := pixel16_untouched o ch fb0 (n + j) _ (ih (by omega))
      (fun k hk => heq _ (by omega))
    simpa [Nat.add_assoc] using this

theorem row16_untouched (o : FBMatrixOutput) (ch : Nat → Nat) (fb0 : Int → Nat)
    (ostride : Int) (total : Nat) (heq : ∀ i, i < 3 * total → o.m_lastFrame i = ch i)
    (n : Nat) (c : Cur16) (hc : Untouched16 fb0 n c) (hle : n + o.m_width ≤ total) :
    Untouched16 fb0 (n + o.m_width) (row16 o ch ostride c) := by
  have h := pixel16_iterate_untouched o ch fb0 total heq o.m_width n
    { c with d := c.drow * ostride } hc hle
  exact h

theorem row16_iterate_untouched (o : FBMatrixOutput) (ch : Nat → Nat) (fb0 : Int → Nat)
    (ostride : Int) (total : Nat) (heq : ∀ i, i < 3 * total → o.m_lastFrame i = ch i)
    (k : Nat) (c : Cur16) (hc : Untouched16 fb0 0 c) (hle : k * o.m_width ≤ total) :
    Untouched16 fb0 (k * o.m_width) ((row16 o ch ostride)^[k] c) := by
  induction k with
  | zero => simpa using hc
  | succ k ih =>
    rw [Function.iterate_succ_apply']
    have hk : k * o.m_width + o.m_width = (k + 1) * o.m_width := by ring
    have := row16_untouched o ch fb0 ostride total heq (k * o.m_width) _
      (ih (by omega)) (by omega)
    rw [hk] at this
    exact this

/-- A frame that agrees with the snapshot on every pixel leaves the frame buffer as it
was on the 16-bit path. -/
theorem renderFb_16_unchanged_frame (o : FBMatrixOutput) (ch : Nat → Nat)
    (hbpp : o.m_bpp = 16)
    (heq : ∀ i, i < 3 * (o.m_height * o.m_width) → o.m_lastFrame i = ch i) :
    renderFb o ch = o.m_fbp := by
  simp only [renderFb, hbpp, if_true]
  exact (row16_iterate_untouched o ch o.m_fbp _ (o.m_height * o.m_width) heq o.m_height _
    ⟨rfl, rfl, rfl⟩ (le_refl _)).1

/-! ### The native paths rendered twice -/

/-- Two runs of the loop of the inverted native path from the same cursors and from two
frame buffers keep the same cursors, and at every offset either hold the same byte or
each hold the byte they started with. -/
theorem rowInv_iterate_agree (ch : Nat → Nat) (istride : Nat) (ostride : Int)
    (fb fb1 : Int → Nat) (s : Nat) (d : Int) (k : Nat) :
    ((rowInv ch istride ostride)^[k] ⟨fb, s, d⟩).src =
      ((rowInv ch istride ostride)^[k] ⟨fb1, s, d⟩).src ∧
    ((rowInv ch istride ostride)^[k] ⟨fb, s, d⟩).dst =
      ((rowInv ch istride ostride)^[k] ⟨fb1, s, d⟩).dst ∧
    ∀ a, ((rowInv ch istride ostride)^[k] ⟨fb, s, d⟩).fb a =
        ((rowInv ch istride ostride)^[k] ⟨fb1, s, d⟩).fb a ∨
      (((rowInv ch istride ostride)^[k] ⟨fb, s, d⟩).fb a = fb a ∧
        ((rowInv ch istride ostride)^[k] ⟨fb1, s, d⟩).fb a = fb1 a) := by
  induction k with
  | zero => exact ⟨rfl, rfl, fun a => Or.inr ⟨rfl, rfl⟩⟩
  | succ k ih =>
    obtain ⟨h1, h2, h3⟩ := ih
    simp only [Function.iterate_succ_apply', rowInv, h1, h2, memcpyFb]
    refine ⟨trivial, trivial, fun a => ?_⟩
    split_ifs
    · exact Or.inl rfl
    · exact h3 a

/-- On the native 24-bit paths a second render of the same frame leaves the frame
buffer as the first render left it. -/
theorem renderFb_native_twice (o : FBMatrixOutput) (ch : Nat → Nat)
    (hbpp : o.m_bpp ≠ 16) (hrgb : o.m_useRGB = false) (last : Nat → Nat) :
    renderFb { o with m_fbp := renderFb o ch, m_lastFrame := last } ch = renderFb o ch := by
  funext a
  simp only [renderFb, hbpp, hrgb, if_false, Bool.false_eq_true]
  split_ifs
  · obtain ⟨-, -, h3⟩ := rowInv_iterate_agree ch (o.m_width * 3)
      ((o.m_width * o.m_bpp / 8 : Nat) : Int)
      ((rowInv ch (o.m_width * 3) ((o.m_width * o.m_bpp / 8 : Nat) : Int))^[o.m_height]
        ⟨o.m_fbp, 0, ((o.m_width * o.m_bpp / 8 : Nat) : Int) * ((o.m_height : Int) - 1)⟩).fb
      o.m_fbp 0 (((o.m_width * o.m_bpp / 8 : Nat) : Int) * ((o.m_height : Int) - 1))
      o.m_height
    rcases h3 a with h | ⟨h, -⟩
    · exact h
    · exact h
  · simp only [memcpyFb]
    split_ifs <;> rfl

/-- On the 16-bit path, when the snapshot covers every pixel, and on the native 24-bit
paths, a second `RawSendData` of the same frame leaves the frame buffer as the first
left it. -/
theorem second_render_alters_nothing_off_the_remapped_path (o : FBMatrixOutput)
    (ch : Nat → Nat)
    (h : (o.m_bpp = 16 ∧ 3 * (o.m_height * o.m_width) ≤ o.m_channelCount) ∨
      (o.m_bpp ≠ 16 ∧ o.m_useRGB = false)) :
    (RawSendData (RawSendData o ch).1 ch).1.m_fbp = (RawSendData o ch).1.m_fbp := by
  rcases h with ⟨hbpp, hcount⟩ | ⟨hbpp, hrgb⟩
  · show renderFb (RawSendData o ch).1 ch = _
    refine renderFb_16_unchanged_frame (RawSendData o ch).1 ch hbpp ?_
    intro i hi
    show memcpy o.m_lastFrame ch o.m_channelCount i = ch i
    have hlt : i < o.m_channelCount := lt_of_lt_of_le hi hcount
    simp only [memcpy, hlt, if_true]
  · exact renderFb_native_twice o ch hbpp hrgb _

/-! ### What the 24-bit path with `m_useRGB` does -/

theorem row_offset_inj (M r r1 i i1 : Int) (hi : 0 ≤ i) (hiM : i < M) (hi1 : 0 ≤ i1)
    (hi1M : i1 < M) (h : r * M + i = r1 * M + i1) : r = r1 ∧ i = i1 := by
  have hM : 0 < M := by omega
  have e1 : (r * M + i) % M = i := by
    rw [Int.add_comm, Int.add_mul_emod_self, Int.emod_eq_of_lt hi hiM]
  have e2 : (r1 * M + i1) % M = i1 := by
    rw [Int.add_comm, Int.add_mul_emod_self, Int.emod_eq_of_lt hi1 hi1M]
  have hii : i = i1 := by rw [← e1, ← e2, h]
  subst hii
  have hr : r * M = r1 * M := by omega
  exact ⟨Int.eq_of_mul_eq_mul_right (by omega) hr, rfl⟩

theorem pixel_index_inj (w y y1 x x1 : Nat) (hx : x < w) (hx1 : x1 < w)
    (h : y * w + x = y1 * w + x1) : y = y1 ∧ x = x1 := by
  have := row_offset_inj (w : Int) y y1 x x1 (by omega) (by omega) (by omega) (by omega)
    (by exact_mod_cast h)
  omega

theorem drowOf_inj (o : FBMatrixOutput) (y y1 : Nat) (h : drowOf o y = drowOf o y1) :
    y = y1 := by
  unfold drowOf at h
  split_ifs at h <;> omega

theorem addr24_inj (o : FBMatrixOutput) (y y1 x x1 c c1 : Nat) (hx : x < o.m_width)
    (hx1 : x1 < o.m_width) (hc : c < 3) (hc1 : c1 < 3)
    (h : addr24 o y x c = addr24 o y1 x1 c1) : y = y1 ∧ x = x1 ∧ c = c1 := by
  unfold addr24 at h
  have := row_offset_inj ((3 * o.m_width : Nat) : Int) (drowOf o y) (drowOf o y1)
    ((3 * x + c : Nat) : Int) ((3 * x1 + c1 : Nat) : Int) (by omega) (by omega) (by omega)
    (by omega) h
  have hy := drowOf_inj o y y1 this.1
  omega

theorem pixel24_step (o : FBMatrixOutput) (ch : Nat → Nat) (fb0 : Int → Nat) (y j : Nat)
    (c : Cur24) (hj : j < o.m_width) (hat : At24 o y j c)
    (hdone : Done24 o ch fb0 (y * o.m_width + j) c.fb) :
    At24 o y (j + 1) (pixel24 o ch c) ∧
    Done24 o ch fb0 (y * o.m_width + (j + 1)) (pixel24 o ch c).fb := by
  obtain ⟨hsR, hsG, hsB, hl, hdrow, hdB, hdG, hdR⟩ := hat
  constructor
  · refine ⟨?_, ?_, ?_, ?_, ?_, ?_, ?_, ?_⟩
    · show c.sR + 3 = _
      omega
    · show c.sG + 3 = _
      omega
    · show c.sB + 3 = _
      omega
    · exact hl
    · exact hdrow
    · show c.dB + 3 = _
      rw [hdB]; unfold addr24; push_cast; ring
    · show c.dG + 3 = _
      rw [hdG]; unfold addr24; push_cast; ring
    · show c.dR + 3 = _
      rw [hdR]; unfold addr24; push_cast; ring
  · intro y1 x1 c1 hy1 hx1 hc1
    have hcond : (memcmp o.m_lastFrame c.l ch c.sB 3 ≠ 0) ↔
        changed24 o ch (y * o.m_width + j) = true := by
      simp [changed24, hl, hsB]
    have hfb : (pixel24 o ch c).fb =
        if changed24 o ch (y * o.m_width + j) = true then
          store8 (store8 (store8 c.fb c.dR (ch c.sR)) c.dG (ch c.sG)) c.dB (ch c.sB)
        else c.fb := by
      simp only [pixel24]
      by_cases hch : changed24 o ch (y * o.m_width + j) = true
      · rw [if_pos hch, if_pos (hcond.mpr hch)]
      · rw [if_neg hch, if_neg (fun h => hch (hcond.mp h))]
    rw [hfb]
    have hprev := hdone y1 x1 c1 hy1 hx1 hc1
    by_cases hsame : y1 * o.m_width + x1 = y * o.m_width + j
    · obtain ⟨rfl, rfl⟩ := pixel_index_inj o.m_width y1 y x1 j hx1 hj hsame
      by_cases hch : changed24 o ch (y1 * o.m_width + x1) = true
      · rw [if_pos hch, if_pos ⟨by omega, hch⟩]
        simp only [store8, hdB, hdG, hdR, hsR, hsG, hsB]
        have e0 : addr24 o y1 x1 1 = addr24 o y1 x1 0 + 1 := by
          unfold addr24; push_cast; ring
        have e2 : addr24 o y1 x1 2 = addr24 o y1 x1 0 + 2 := by
          unfold addr24; push_cast; ring
        interval_cases c1
        · simp
        · rw [if_neg (by rw [e0]; omega), if_pos rfl]
        · rw [if_neg (by rw [e2]; omega), if_neg (by rw [e0, e2]; omega), if_pos rfl]
          rfl
      · rw [if_neg hch, hprev, if_neg (by omega), if_neg (fun h => hch h.2)]
    · have hne : ∀ c2, c2 < 3 → addr24 o y1 x1 c1 ≠ addr24 o y j c2 := by
        intro c2 hc2 h
        obtain ⟨rfl, rfl, -⟩ := addr24_inj o y1 y x1 j c1 c2 hx1 hj hc1 hc2 h
        exact hsame rfl
      have hkeep : (if changed24 o ch (y * o.m_width + j) = true then
          store8 (store8 (store8 c.fb c.dR (ch c.sR)) c.dG (ch c.sG)) c.dB (ch c.sB)
          else c.fb) (addr24 o y1 x1 c1) = c.fb (addr24 o y1 x1 c1) := by
        split_ifs
        · simp only [store8, hdB, hdG, hdR]
          rw [if_neg (hne 0 (by omega)), if_neg (hne 1 (by omega)),
            if_neg (hne 2 (by omega))]
        · rfl
      rw [hkeep, hprev]
      have hlt : y1 * o.m_width + x1 < y * o.m_width + (j + 1) ↔
          y1 * o.m_width + x1 < y * o.m_width + j := by omega
      simp only [hlt]

theorem pixel24_iterate (o : FBMatrixOutput) (ch : Nat → Nat) (fb0 : Int → Nat) (y : Nat)
    (c : Cur24) (hat : At24 o y 0 c) (hdone : Done24 o ch fb0 (y * o.m_width) c.fb)
    (j : Nat) (hj : j ≤ o.m_width) :
    At24 o y j ((pixel24 o ch)^[j] c) ∧
    Done24 o ch fb0 (y * o.m_width + j) ((pixel24 o ch)^[j] c).fb := by
  induction j with
  | zero => exact ⟨hat, hdone⟩
  | succ j ih =>
    obtain ⟨h1, h2⟩ := ih (by omega)
    rw [Function.iterate_succ_apply']
    exact pixel24_step o ch fb0 y j _ (by omega) h1 h2

theorem row24_step (o : FBMatrixOutput) (ch : Nat → Nat) (fb0 : Int → Nat) (y : Nat)
    (c : Cur24) (hstart : RowStart24 o y c)
    (hdone : Done24 o ch fb0 (y * o.m_width) c.fb) :
    RowStart24 o (y + 1) (row24 o ch ((3 * o.m_width : Nat) : Int) c) ∧
    Done24 o ch fb0 ((y + 1) * o.m_width)
      (row24 o ch ((3 * o.m_width : Nat) : Int) c).fb := by
  obtain ⟨hsR, hsG, hsB, hl, hdrow⟩ := hstart
  have hat : At24 o y 0
      { c with dR := c.drow * ((3 * o.m_width : Nat) : Int) + 2,
               dG := c.drow * ((3 * o.m_width : Nat) : Int) + 1,
               dB := c.drow * ((3 * o.m_width : Nat) : Int) + 0 } := by
    refine ⟨by simpa using hsR, by simpa using hsG, by simpa using hsB, hl, hdrow, ?_, ?_, ?_⟩
    · show c.drow * ((3 * o.m_width : Nat) : Int) + 0 = _
      rw [hdrow]; unfold addr24; push_cast; ring
    · show c.drow * ((3 * o.m_width : Nat) : Int) + 1 = _
      rw [hdrow]; unfold addr24; push_cast; ring
    · show c.drow * ((3 * o.m_width : Nat) : Int) + 2 = _
      rw [hdrow]; unfold addr24; push_cast; ring
  obtain ⟨⟨h1, h2, h3, h4, h5, -, -, -⟩, hd⟩ :=
    pixel24_iterate o ch fb0 y _ hat hdone o.m_width (le_refl _)
  have hw : y * o.m_width + o.m_width = (y + 1) * o.m_width := by ring
  rw [hw] at h1 h2 h3 hd
  refine ⟨⟨h1, h2, h3, h4, ?_⟩, hd⟩
  show ((pixel24 o ch)^[o.m_width] _).drow + (if o.m_inverted = true then -1 else 1) = _
  rw [h5]
  unfold drowOf
  split_ifs <;> push_cast <;> ring

theorem row24_iterate (o : FBMatrixOutput) (ch : Nat → Nat) (fb0 : Int → Nat)
    (c : Cur24) (hstart : RowStart24 o 0 c) (hdone : Done24 o ch fb0 0 c.fb) (k : Nat) :
    RowStart24 o k ((row24 o ch ((3 * o.m_width : Nat) : Int))^[k] c) ∧
    Done24 o ch fb0 (k * o.m_width)
      ((row24 o ch ((3 * o.m_width : Nat) : Int))^[k] c).fb := by
  induction k with
  | zero => exact ⟨hstart, by simpa using hdone⟩
  | succ k ih =>
    rw [Function.iterate_succ_apply']
    exact row24_step o ch fb0 k _ ih.1 ih.2

/-- What the 24-bit path with `m_useRGB` does: byte `c` of the pixel in column `x` of the
destination row of source row `y` holds byte `2 - c` of pixel `y * m_width + x` of the
frame when the first three bytes of the snapshot differ from the three frame bytes that
start at the last byte of that pixel, and is left as it was otherwise. -/
theorem renderFb_remapped_pixel (o : FBMatrixOutput) (ch : Nat → Nat)
    (hbpp : o.m_bpp = 24) (hrgb : o.m_useRGB = true) (y x c : Nat) (hy : y < o.m_height)
    (hx : x < o.m_width) (hc : c < 3) :
    renderFb o ch (addr24 o y x c) =
      if changed24 o ch (y * o.m_width + x) = true then
        ch (3 * (y * o.m_width + x) + (2 - c))
      else o.m_fbp (addr24 o y x c) := by
  have hstride : o.m_width * 24 / 8 = 3 * o.m_width := by omega
  simp only [renderFb, hbpp, hrgb, if_true, hstride]
  rw [if_neg (by decide)]
  have h := (row24_iterate o ch o.m_fbp
    { fb := o.m_fbp, sR := 0, sG := 1, sB := 2, l := 0, dR := 0, dG := 0, dB := 0,
      srow := 0, drow := if o.m_inverted = true then (o.m_height : Int) - 1 else 0 }
    ⟨by simp, by simp, by simp, rfl, by unfold drowOf; split_ifs <;> simp⟩
    (by intro y1 x1 c1 _ _ _; simp) o.m_height).2 y x c hy hx hc
  rw [h]
  have hlt : y * o.m_width + x < o.m_height * o.m_width := by
    have : (y + 1) * o.m_width ≤ o.m_height * o.m_width :=
      Nat.mul_le_mul_right _ (by omega)
    have e : (y + 1) * o.m_width = y * o.m_width + o.m_width := by ring
    omega
  simp only [hlt, true_and]

/-! ### The inversion law on the 24-bit paths -/

/-- The loop of the inverted native path after `k` rows, with equal strides `M`: the
cursors, and the rows copied so far. -/
theorem rowInv_iterate_rows (ch : Nat → Nat) (M h : Nat) (fb0 : Int → Nat) (k : Nat)
    (hk : k ≤ h) :
    ((rowInv ch M (M : Int))^[k] ⟨fb0, 0, (M : Int) * ((h : Int) - 1)⟩).src = k * M ∧
    ((rowInv ch M (M : Int))^[k] ⟨fb0, 0, (M : Int) * ((h : Int) - 1)⟩).dst =
      (M : Int) * ((h : Int) - 1) - (k : Int) * (M : Int) ∧
    ∀ y i, y < k → i < M →
      ((rowInv ch M (M : Int))^[k] ⟨fb0, 0, (M : Int) * ((h : Int) - 1)⟩).fb
        ((M : Int) * ((h : Int) - 1) - (y : Int) * (M : Int) + (i : Int)) = ch (y * M + i) := by
  induction k with
  | zero => exact ⟨by simp, by simp, fun y i hy _ => absurd hy (by omega)⟩
  | succ k ih =>
    obtain ⟨h1, h2, h3⟩ := ih (by omega)
    rw [Function.iterate_succ_apply']
    refine ⟨?_, ?_, ?_⟩
    · show _ + M = _
      rw [h1]; ring
    · show _ - (M : Int) = _
      rw [h2]; push_cast; ring
    · intro y i hy hi
      show memcpyFb _ _ ch _ M _ = _
      simp only [memcpyFb, h1, h2]
      by_cases hyk : y = k
      · subst hyk
        rw [if_pos (by constructor <;> omega)]
        congr 1
        have : ((M : Int) * ((h : Int) - 1) - (y : Int) * (M : Int) + (i : Int) -
            ((M : Int) * ((h : Int) - 1) - (y : Int) * (M : Int))).toNat = i := by
          rw [show (M : Int) * ((h : Int) - 1) - (y : Int) * (M : Int) + (i : Int) -
            ((M : Int) * ((h : Int) - 1) - (y : Int) * (M : Int)) = (i : Int) by ring]
          simp
        rw [this]
      · have hlt : y < k := by omega
        have hmul : ((y : Int) + 1) * (M : Int) ≤ (k : Int) * (M : Int) :=
          Int.mul_le_mul_of_nonneg_right (by omega) (by omega)
        have hexp : ((y : Int) + 1) * (M : Int) = (y : Int) * (M : Int) + (M : Int) := by ring
        rw [if_neg (by intro hc; omega)]
        exact h3 y i hlt hi

/-- The inversion law on the 24-bit paths: from a blank frame buffer and the same
snapshot, row `y` of the render with `m_inverted` off is row `m_height - 1 - y` of the
render with `m_inverted` on. -/
theorem inversion_law_24_bit (o : FBMatrixOutput) (ch : Nat → Nat) (hbpp : o.m_bpp = 24)
    (hsize : o.m_screenSize = o.m_width * o.m_height * 3) (y : Nat)
    (hy : y < o.m_height) :
    surfaceRow (RawSendData { o with m_inverted := false, m_fbp := blankFb } ch).1 y =
      surfaceRow (RawSendData { o with m_inverted := true, m_fbp := blankFb } ch).1
        (o.m_height - 1 - y) := by
  obtain ⟨w, h, rgb, inv, bpp, ss, cc, fbp, lf, cube⟩ := o
  simp only at hbpp hsize hy
  subst hbpp hsize
  have hstride : w * 24 / 8 = 3 * w := by omega
  simp only [surfaceRow, RawSendData, hstride]
  apply List.map_congr_left
  intro i hi
  have hi3 : i < 3 * w := List.mem_range.mp hi
  have hcast : ((h - 1 - y : Nat) : Int) = (h : Int) - 1 - (y : Int) := by omega
  cases rgb with
  | true =>
    have hA := renderFb_remapped_pixel
      ⟨w, h, true, false, 24, w * h * 3, cc, blankFb, lf, cube⟩ ch rfl rfl y (i / 3) (i % 3)
      hy (by show i / 3 < w; omega) (Nat.mod_lt _ (by decide))
    have hB := renderFb_remapped_pixel
      ⟨w, h, true, true, 24, w * h * 3, cc, blankFb, lf, cube⟩ ch rfl rfl y (i / 3) (i % 3)
      hy (by show i / 3 < w; omega) (Nat.mod_lt _ (by decide))
    have eA : addr24 ⟨w, h, true, false, 24, w * h * 3, cc, blankFb, lf, cube⟩ y (i / 3)
        (i % 3) = ((y * (3 * w) + i : Nat) : Int) := by
      simp only [addr24, drowOf]
      rw [if_neg (by decide)]
      push_cast
      omega
    have eB : addr24 ⟨w, h, true, true, 24, w * h * 3, cc, blankFb, lf, cube⟩ y (i / 3)
        (i % 3) = (((h - 1 - y) * (3 * w) + i : Nat) : Int) := by
      simp only [addr24, drowOf, if_true]
      push_cast
      rw [hcast]
      omega
    rw [eA] at hA
    rw [eB] at hB
    rw [hA, hB]
    rfl
  | false =>
    have hlt : y * (3 * w) + i < w * h * 3 := by
      have h1 : (y + 1) * (3 * w) ≤ h * (3 * w) := Nat.mul_le_mul_right _ (by omega)
      have e1 : (y + 1) * (3 * w) = y * (3 * w) + 3 * w := by ring
      have e2 : h * (3 * w) = w * h * 3 := by ring
      omega
    have hA : renderFb ⟨w, h, false, false, 24, w * h * 3, cc, blankFb, lf, cube⟩ ch
        ((y * (3 * w) + i : Nat) : Int) = ch (y * (3 * w) + i) := by
      simp only [renderFb]
      rw [if_neg (by decide), if_neg (by decide), if_neg (by decide)]
      exact memcpyFb_zero_apply _ _ _ _ hlt
    have hB : renderFb ⟨w, h, false, true, 24, w * h * 3, cc, blankFb, lf, cube⟩ ch
        (((h - 1 - y) * (3 * w) + i : Nat) : Int) = ch (y * (3 * w) + i) := by
      simp only [renderFb, hstride]
      rw [if_neg (by decide), if_neg (by decide), if_pos trivial]
      have h3 := (rowInv_iterate_rows ch (3 * w) h blankFb h (le_refl _)).2.2 y i hy hi3
      have e : w * 3 = 3 * w := by ring
      rw [e]
      have ea : (((h - 1 - y) * (3 * w) + i : Nat) : Int) =
          ((3 * w : Nat) : Int) * ((h : Int) - 1) - (y : Int) * ((3 * w : Nat) : Int) +
            (i : Int) := by
        push_cast
        rw [hcast]
        ring
      rw [ea]
      exact h3
    rw [hA, hB]

/-! ### The 16-bit path against the straightforward renderer -/

theorem specPixel16_cond (o : FBMatrixOutput) (ch : Nat → Nat) (i : Nat) :
    ([ch (3 * i), ch (3 * i + 1), ch (3 * i + 2)] ≠
      [o.m_lastFrame (3 * i), o.m_lastFrame (3 * i + 1), o.m_lastFrame (3 * i + 2)]) ↔
    changed16 o ch i := by
  unfold changed16
  rw [ne_eq, ne_eq, memcmp_eq_zero_iff]
  constructor
  · intro h1 h2
    apply h1
    have e0 := h2 0 (by omega)
    have e1 := h2 1 (by omega)
    have e2 := h2 2 (by omega)
    simp only [Nat.add_zero] at e0
    rw [e0, e1, e2]
  · intro h1 h2
    apply h1
    simp only [List.cons.injEq, and_true] at h2
    obtain ⟨e0, e1, e2⟩ := h2
    intro k hk
    interval_cases k
    · simpa using e0.symm
    · exact e1.symm
    · exact e2.symm

theorem pixel16_sim (o : FBMatrixOutput) (ch : Nat → Nat) (y j : Nat) (c : Cur16)
    (s : Int → Nat)
    (total : Nat)
    (hfirst : ∀ p q, q < p → p < total → changed16 o ch p → changed16 o ch q)
    (hp : y * o.m_width + j < total) (hsim : Sim16 o ch y j c s) :
    Sim16 o ch y (j + 1) (pixel16 o ch c) (specPixel16 o ch y j s) := by
  obtain ⟨hfb, hsR, hl, hdrow, hzero, hskip⟩ := hsim
  have hspec := specPixel16_cond o ch (y * o.m_width + j)
  by_cases hch : changed16 o ch (y * o.m_width + j)
  · have hsk : c.skipped = 0 := by
      by_contra hne
      obtain ⟨q, hq, hnq⟩ := hskip hne
      exact hnq (hfirst _ q hq hp hch)
    obtain ⟨hsG, hsB, hd⟩ := hzero hsk
    have hcode : memcmp o.m_lastFrame c.l ch c.sR 3 ≠ 0 := by
      rw [hl, hsR]; exact hch
    have hcu : catchUp16 c = c := by simp [catchUp16, hsk]
    simp only [pixel16, hcode, ne_eq, not_false_eq_true, if_true, hcu, specPixel16,
      hspec.mpr hch]
    refine ⟨?_, ?_, ?_, hdrow, ?_, ?_⟩
    · show store16 c.fb c.d (word16 o ch c) = _
      rw [hfb, hd]
      simp only [word16, specWord16, hsR, hsG, hsB]
    · show c.sR + 3 = _
      omega
    · show c.l + 3 = _
      omega
    · intro _
      refine ⟨?_, ?_, ?_⟩
      · show c.sG + 3 = _
        omega
      · show c.sB + 3 = _
        omega
      · show c.d + 2 = _
        rw [hd]; push_cast; ring
    · intro hne
      exact absurd hsk hne
  · have hcode : ¬ memcmp o.m_lastFrame c.l ch c.sR 3 ≠ 0 := by
      rw [hl, hsR]; exact hch
    have hs : ¬ ([ch (3 * (y * o.m_width + j)), ch (3 * (y * o.m_width + j) + 1),
        ch (3 * (y * o.m_width + j) + 2)] ≠
      [o.m_lastFrame (3 * (y * o.m_width + j)), o.m_lastFrame (3 * (y * o.m_width + j) + 1),
        o.m_lastFrame (3 * (y * o.m_width + j) + 2)]) := fun h => hch (hspec.mp h)
    simp only [pixel16, hcode, if_false, specPixel16, hs]
    refine ⟨hfb, ?_, ?_, hdrow, ?_, ?_⟩
    · show c.sR + 3 = _
      omega
    · show c.l + 3 = _
      omega
    · intro h0
      exact absurd h0 (Nat.succ_ne_zero _)
    · intro _
      exact ⟨y * o.m_width + j, by omega, hch⟩

theorem pixel16_iterate_sim (o : FBMatrixOutput) (ch : Nat → Nat) (y : Nat) (c : Cur16)
    (s : Int → Nat)
    (total : Nat)
    (hfirst : ∀ p q, q < p → p < total → changed16 o ch p → changed16 o ch q)
    (hsim : Sim16 o ch y 0 c s) (j : Nat) (hj : y * o.m_width + j ≤ total) :
    Sim16 o ch y j ((pixel16 o ch)^[j] c)
      ((List.range j).foldl (fun fb1 x => specPixel16 o ch y x fb1) s) := by
  induction j with
  | zero => simpa using hsim
  | succ j ih =>
    rw [Function.iterate_succ_apply', List.range_succ, List.foldl_append]
    exact pixel16_sim o ch y j _ _ total hfirst (by omega) (ih (by omega))

theorem row16_sim (o : FBMatrixOutput) (ch : Nat → Nat) (y : Nat) (c : Cur16)
    (s : Int → Nat)
    (total : Nat)
    (hfirst : ∀ p q, q < p → p < total → changed16 o ch p → changed16 o ch q)
    (hy : (y + 1) * o.m_width ≤ total) (hsim : RowSim16 o ch y c s) :
    RowSim16 o ch (y + 1) (row16 o ch ((o.m_width * 2 : Nat) : Int) c)
      ((List.range o.m_width).foldl (fun fb1 x => specPixel16 o ch y x fb1) s) := by
  obtain ⟨hfb, hsR, hl, hdrow, hzero, hskip⟩ := hsim
  have hstart : Sim16 o ch y 0 { c with d := c.drow * ((o.m_width * 2 : Nat) : Int) } s := by
    refine ⟨hfb, by simpa using hsR, by simpa using hl, hdrow, ?_, by simpa using hskip⟩
    intro h0
    obtain ⟨h1, h2⟩ := hzero h0
    refine ⟨by simpa using h1, by simpa using h2, ?_⟩
    show c.drow * ((o.m_width * 2 : Nat) : Int) = _
    rw [hdrow]; simp
  have hw : y * o.m_width + o.m_width = (y + 1) * o.m_width := by ring
  obtain ⟨g1, g2, g3, g4, g5, g6⟩ :=
    pixel16_iterate_sim o ch y _ s total hfirst hstart o.m_width (by omega)
  rw [hw] at g2 g3 g5 g6
  refine ⟨g1, g2, g3, ?_, fun h0 => ⟨(g5 h0).1, (g5 h0).2.1⟩, g6⟩
  show ((pixel16 o ch)^[o.m_width] _).drow + (if o.m_inverted = true then -1 else 1) = _
  rw [g4]
  unfold drowOf
  split_ifs <;> push_cast <;> ring

theorem row16_iterate_sim (o : FBMatrixOutput) (ch : Nat → Nat) (c : Cur16)
    (s : Int → Nat)
    (total : Nat)
    (hfirst : ∀ p q, q < p → p < total → changed16 o ch p → changed16 o ch q)
    (hsim : RowSim16 o ch 0 c s) (k : Nat) (hk : k * o.m_width ≤ total) :
    RowSim16 o ch k ((row16 o ch ((o.m_width * 2 : Nat) : Int))^[k] c)
      ((List.range k).foldl
        (fun fb y => (List.range o.m_width).foldl (fun fb1 x => specPixel16 o ch y x fb1) fb)
        s) := by
  induction k with
  | zero => simpa using hsim
  | succ k ih =>
    rw [Function.iterate_succ_apply', List.range_succ, List.foldl_append]
    have hle : k * o.m_width ≤ (k + 1) * o.m_width := Nat.mul_le_mul_right _ (by omega)
    exact row16_sim o ch k _ _ total hfirst hk (ih (by omega))

/-- When no pixel that agrees with the snapshot comes before a pixel that differs from
it, the 16-bit path of `RawSendData` leaves the frame buffer that the straightforward
renderer leaves. -/
theorem renderFb_16_eq_spec_when_changes_come_first (o : FBMatrixOutput)
    (ch : Nat → Nat) (hbpp : o.m_bpp = 16)
    (hfirst : ∀ p q, q < p → p < o.m_height * o.m_width →
      changed16 o ch p → changed16 o ch q) :
    renderFb o ch = render16Spec o ch := by
  have hstride : o.m_width * 16 / 8 = o.m_width * 2 := by omega
  simp only [renderFb, hbpp, if_true, hstride, render16Spec]
  exact (row16_iterate_sim o ch _ o.m_fbp (o.m_height * o.m_width) hfirst
    ⟨rfl, by simp, by simp, by unfold drowOf; split_ifs <;> simp,
      fun _ => ⟨by simp, by simp⟩, fun h => absurd rfl h⟩ o.m_height (le_refl _)).1

/-! ## Initialisation -/

theorem toU32_toInt32 (z : Int) : toU32 (toInt32 z) = toU32 z := by
  unfold toU32 toInt32
  congr 1
  omega

theorem toU32_toInt32_mul (a : Int) : toU32 (toInt32 a * 3) = toU32 (a * 3) := by
  unfold toU32 toInt32
  congr 1
  omega

theorem toU32_product (a : Int) : toU32 (toInt32 (toInt32 a * 3)) = toU32 (a * 3) := by
  rw [toU32_toInt32, toU32_toInt32_mul]

theorem toU32_cast (z : Int) : ((toU32 z : Nat) : Int) = z % 4294967296 := by
  unfold toU32
  omega

/-- What a non-zero return value of the last part of `Init` implies. -/
theorem initChecks_ret_ne_zero (dev : Device) (n : Nat) (c : Config) (bpp : Nat)
    (v3 v4 orig : fb_var_screeninfo) (h : (initChecks dev n c bpp v3 v4 orig).ret ≠ 0) :
    initChecks dev n c bpp v3 v4 orig =
      ⟨dev.base_Init, .baseInit, [v3], c, bpp,
        (toU32 (c.m_width * c.m_height) * v4.bits_per_pixel) % 4294967296 / 8, v4, orig⟩ ∧
    n = toU32 (c.m_width * c.m_height * 3) := by
  unfold initChecks at h ⊢
  simp only [initFail] at h ⊢
  split_ifs at h ⊢ <;> simp_all [toU32_product, toU32_toInt32, toU32_toInt32_mul]

/-- What a non-zero return value of the device part of `Init` implies. -/
theorem initDevice_ret_ne_zero (dev : Device) (n : Nat) (c : Config)
    (h : (initDevice dev n c).ret ≠ 0) :
    (initDevice dev n c).exit = .baseInit ∧
    (initDevice dev n c).config = c ∧
    n = toU32 (c.m_width * c.m_height * 3) ∧
    ((initDevice dev n c).m_bpp = 16 ∨ (initDevice dev n c).m_bpp = 24) ∧
    (initDevice dev n c).m_screenSize =
      (toU32 (c.m_width * c.m_height) * (initDevice dev n c).m_vInfo.bits_per_pixel)
        % 4294967296 / 8 := by
  unfold initDevice at h ⊢
  simp only [initFail] at h ⊢
  split_ifs at h ⊢
  all_goals first
    | exact absurd rfl h
    | (obtain ⟨he, hn⟩ := initChecks_ret_ne_zero _ _ _ _ _ _ _ h
       rw [he]
       refine ⟨rfl, rfl, hn, ?_, rfl⟩
       first
         | (simp only; omega)
         | simp_all)

/-- The configuration of the scenario, as the configuration loop reads it. -/
theorem parseConfig_scenario :
    parseConfig splitModel "layout=16x16;colorOrder=BGR;invert=0" =
      some scenarioConfig := by
  decide

/-- C6, as amended. After an `Init` that succeeds at 24 bits on the configuration
`layout=16x16;colorOrder=BGR;invert=0` with 768 channels, `RawSendData` of the all-red
frame leaves the bytes `255, 0, 0` at every pixel position of the mapped surface,
whatever the surface and the snapshot held before: the frame is copied as it is. -/
theorem all_red_frame_is_copied_unchanged (dev : Device) (r : InitResult)
    (fbp : Int → Nat) (lastFrame : Nat → Nat)
    (hinit : Init splitModel dev 768 "layout=16x16;colorOrder=BGR;invert=0" = some r)
    (hret : r.ret ≠ 0) (hbpp : r.m_bpp = 24) (hdepth : r.m_vInfo.bits_per_pixel = 24)
    (p : Nat) (hp : p < 256) :
    pixelBytes (RawSendData (objectOf r 768 fbp lastFrame) allRed).1 p = [255, 0, 0] := by
  unfold Init at hinit
  rw [parseConfig_scenario] at hinit
  simp only [Option.some.injEq] at hinit
  subst hinit
  obtain ⟨-, hcfg, -, -, hsize⟩ := initDevice_ret_ne_zero _ _ _ hret
  rw [hdepth] at hsize
  have hsz : (initDevice dev 768 scenarioConfig).m_screenSize = 768 := by
    rw [hsize]; decide
  have hfb : (RawSendData (objectOf (initDevice dev 768 scenarioConfig) 768 fbp lastFrame)
      allRed).1.m_fbp = memcpyFb fbp 0 allRed 0 768 := by
    simp only [RawSendData, renderFb, objectOf, hbpp, hcfg, hsz]
    simp [scenarioConfig]
  have h0 : allRed (3 * p) = 255 := by
    have : 3 * p % 3 = 0 := by omega
    simp [allRed, this]; omega
  have h1 : allRed (3 * p + 1) = 0 := by
    have : (3 * p + 1) % 3 = 1 := by omega
    simp [allRed, this]
  have h2 : allRed (3 * p + 2) = 0 := by
    have : (3 * p + 2) % 3 = 2 := by omega
    simp [allRed, this]
  simp only [pixelBytes, hfb]
  rw [memcpyFb_zero_apply _ _ _ _ (by omega), memcpyFb_zero_apply _ _ _ _ (by omega),
    memcpyFb_zero_apply _ _ _ _ (by omega), h0, h1, h2]

/-- C6, witness: a device at 1920 by 1080 and 32 bits, a blank surface and an empty
snapshot; the last pixel. -/
theorem all_red_frame_is_copied_unchanged_witness :
    Init splitModel (plainDevice 1920 1080 32) 768 "layout=16x16;colorOrder=BGR;invert=0" =
      some (initDevice (plainDevice 1920 1080 32) 768 scenarioConfig) ∧
    (initDevice (plainDevice 1920 1080 32) 768 scenarioConfig).ret ≠ 0 ∧
    (initDevice (plainDevice 1920 1080 32) 768 scenarioConfig).m_bpp = 24 ∧
    (initDevice (plainDevice 1920 1080 32) 768 scenarioConfig).m_vInfo.bits_per_pixel = 24 ∧
    255 < 256 ∧
    pixelBytes (RawSendData (objectOf (initDevice (plainDevice 1920 1080 32) 768
      scenarioConfig) 768 blankFb (ofList [])) allRed).1 255 = [255, 0, 0] :=
  ⟨by decide, by decide, by decide, by decide, by decide,
    all_red_frame_is_copied_unchanged (plainDevice 1920 1080 32) _ blankFb (ofList [])
      (by decide) (by decide) (by decide) (by decide) 255 (by decide)⟩

/-- C6, counterexample to the claim as stated. In the scenario pixel 0 of the mapped
surface holds `255, 0, 0` after the render, not `0, 0, 255`. -/
theorem all_red_frame_is_not_reordered :
    (Init splitModel (plainDevice 640 480 24) 768
        "layout=16x16;colorOrder=BGR;invert=0").map
      (fun r => (r.ret, r.m_bpp,
        pixelBytes (RawSendData (objectOf r 768 blankFb (ofList [])) allRed).1 0)) =
      some (1, 24, [255, 0, 0]) ∧
    [255, 0, 0] ≠ [0, 0, 255] := by
  decide

/-- C7, as amended. When `Init` returns a non-zero value, the channel count equals the
product `width * height * 3` of the parsed layout reduced modulo `2 ^ 32` (the value
the 32-bit comparison sees), hence the product itself when that lies between `0` and
`2 ^ 32 - 1`, and the bit depth in use is 16 or 24. -/
theorem Init_success_channel_count_modulo (split : String → Char → List String)
    (dev : Device) (m_channelCount : Nat) (configStr : String) (r : InitResult)
    (hinit : Init split dev m_channelCount configStr = some r) (hret : r.ret ≠ 0) :
    parseConfig split configStr = some r.config ∧
    (m_channelCount : Int) = (r.config.m_width * r.config.m_height * 3) % 4294967296 ∧
    (r.m_bpp = 16 ∨ r.m_bpp = 24) ∧
    (0 ≤ r.config.m_width * r.config.m_height * 3 →
      r.config.m_width * r.config.m_height * 3 < 4294967296 →
      (m_channelCount : Int) = r.config.m_width * r.config.m_height * 3) := by
  unfold Init at hinit
  cases hp : parseConfig split configStr with
  | none => rw [hp] at hinit; exact absurd hinit (by simp)
  | some c =>
    rw [hp] at hinit
    simp only [Option.some.injEq] at hinit
    subst hinit
    obtain ⟨-, hcfg, hn, hb, -⟩ := initDevice_ret_ne_zero _ _ _ hret
    rw [hcfg]
    have hmod : (m_channelCount : Int) = (c.m_width * c.m_height * 3) % 4294967296 := by
      rw [hn, toU32_cast]
    refine ⟨rfl, hmod, hb, ?_⟩
    intro h0 h1
    rw [hmod]
    exact Int.emod_eq_of_lt h0 h1

/-- C7, witness: the layout `16x16` with 768 channels on a device at 24 bits. -/
theorem Init_success_channel_count_modulo_witness :
    Init splitModel (plainDevice 640 480 24) 768 "layout=16x16;colorOrder=BGR;invert=0" =
      some (initDevice (plainDevice 640 480 24) 768 scenarioConfig) ∧
    (initDevice (plainDevice 640 480 24) 768 scenarioConfig).ret ≠ 0 ∧
    ((768 : Nat) : Int) =
      ((initDevice (plainDevice 640 480 24) 768 scenarioConfig).config.m_width *
        (initDevice (plainDevice 640 480 24) 768 scenarioConfig).config.m_height * 3)
        % 4294967296 ∧
    ((initDevice (plainDevice 640 480 24) 768 scenarioConfig).m_bpp = 16 ∨
      (initDevice (plainDevice 640 480 24) 768 scenarioConfig).m_bpp = 24) :=
  ⟨by decide, by decide,
    (Init_success_channel_count_modulo splitModel (plainDevice 640 480 24) 768
      "layout=16x16;colorOrder=BGR;invert=0" _ (by decide) (by decide)).2.1,
    (Init_success_channel_count_modulo splitModel (plainDevice 640 480 24) 768
      "layout=16x16;colorOrder=BGR;invert=0" _ (by decide) (by decide)).2.2.1⟩

/-- C7, counterexample to the claim as stated. With the layout `-1x1` and 4294967293
channels, and with the layout `65536x21846` and 131072 channels, `Init` returns 1
although the channel count is not the product `width * height * 3`. -/
theorem Init_accepts_channel_count_that_is_not_the_product :
    ((Init splitModel (plainDevice 640 480 24) 4294967293 "layout=-1x1").map
        (fun r => (r.ret, r.config.m_width, r.config.m_height)) = some (1, -1, 1) ∧
      (4294967293 : Int) ≠ -1 * 1 * 3) ∧
    ((Init splitModel (plainDevice 640 480 24) 131072 "layout=65536x21846").map
        (fun r => (r.ret, r.config.m_width, r.config.m_height)) = some (1, 65536, 21846) ∧
      (131072 : Int) ≠ 65536 * 21846 * 3) := by
  decide

/-- A failure of the last part of `Init` on the screen size or on the channel count
returns 0 after committing `orig`. -/
theorem initChecks_size_or_count_exit (dev : Device) (n : Nat) (c : Config) (bpp : Nat)
    (v3 v4 orig : fb_var_screeninfo)
    (h : (initChecks dev n c bpp v3 v4 orig).exit = .screenSizeError ∨
      (initChecks dev n c bpp v3 v4 orig).exit = .channelCountError) :
    (initChecks dev n c bpp v3 v4 orig).ret = 0 ∧
    (initChecks dev n c bpp v3 v4 orig).commits.getLast? = some orig := by
  unfold initChecks at h ⊢
  simp only [initFail] at h ⊢
  split_ifs at h ⊢ <;> simp_all

/-- C8, as amended. When `Init` fails on the screen size or on the channel count, it
returns 0 and the last structure it commits is the structure the device reported with
the bit depth set to 16 and the resolution and the virtual resolution set to 640 by
480, the other fields as reported. -/
theorem failed_Init_commits_640_by_480_at_16_bits (split : String → Char → List String)
    (dev : Device) (m_channelCount : Nat) (configStr : String) (r : InitResult)
    (hinit : Init split dev m_channelCount configStr = some r)
    (hexit : r.exit = .screenSizeError ∨ r.exit = .channelCountError) :
    r.ret = 0 ∧
    r.commits.getLast? =
      some { dev.get_vscreeninfo.2 with
        bits_per_pixel := 16, xres := 640, xres_virtual := 640, yres := 480,
        yres_virtual := 480 } := by
  unfold Init at hinit
  cases hp : parseConfig split configStr with
  | none => rw [hp] at hinit; exact absurd hinit (by simp)
  | some c =>
    rw [hp] at hinit
    simp only [Option.some.injEq] at hinit
    subst hinit
    unfold initDevice at hexit ⊢
    simp only [initFail] at hexit ⊢
    split_ifs at hexit ⊢
    all_goals first
      | (exfalso; revert hexit; decide)
      | exact initChecks_size_or_count_exit _ _ _ _ _ _ _ hexit

/-- C8, witness: a device at 1920 by 1080 and 32 bits, the layout `2x2` and 5
channels. -/
theorem failed_Init_commits_640_by_480_at_16_bits_witness :
    Init splitModel (plainDevice 1920 1080 32) 5 "layout=2x2" =
      some (initDevice (plainDevice 1920 1080 32) 5 layout2x2) ∧
    ((initDevice (plainDevice 1920 1080 32) 5 layout2x2).exit = .screenSizeError ∨
      (initDevice (plainDevice 1920 1080 32) 5 layout2x2).exit = .channelCountError) ∧
    ((initDevice (plainDevice 1920 1080 32) 5 layout2x2).ret = 0 ∧
      (initDevice (plainDevice 1920 1080 32) 5 layout2x2).commits.getLast? =
        some { (plainDevice 1920 1080 32).get_vscreeninfo.2 with
          bits_per_pixel := 16, xres := 640, xres_virtual := 640, yres := 480,
          yres_virtual := 480 }) :=
  ⟨by decide, by decide,
    failed_Init_commits_640_by_480_at_16_bits splitModel (plainDevice 1920 1080 32) 5
      "layout=2x2" _ (by decide) (by decide)⟩

/-- C8, counterexample to the claim as stated. A device that reports 1920 by 1080 at
32 bits, the layout `2x2` and 5 channels: `Init` fails on the channel count and the
last structure it commits is 640 by 480 at 16 bits, not the structure reported. -/
theorem failed_Init_does_not_restore_reported_mode :
    (Init splitModel (plainDevice 1920 1080 32) 5 "layout=2x2").map
        (fun r => (r.ret, r.exit, r.commits.getLast?.map
          (fun v => (v.xres, v.yres, v.bits_per_pixel)))) =
      some (0, .channelCountError, some (640, 480, 16)) ∧
    (Init splitModel (plainDevice 1920 1080 32) 5 "layout=2x2").map
        (fun r => r.commits.getLast?) ≠
      some (some (plainDevice 1920 1080 32).get_vscreeninfo.2) := by
  decide

/-! ## The main loop -/

theorem extends_self (P : Call → Prop) (l : List Call) : Extends P l l :=
  ⟨[], by simp, by simp⟩

theorem extends_append (P : Call → Prop) (l m : List Call) :
    Extends P l (l ++ m) ↔ ∀ c ∈ m, P c := by
  constructor
  · rintro ⟨m1, h, hm⟩
    have h1 := List.append_cancel_left h
    subst h1
    exact hm
  · intro h
    exact ⟨m, rfl, h⟩

theorem extends_trans {P : Call → Prop} {l1 l2 l3 : List Call} (h12 : Extends P l1 l2)
    (h23 : Extends P l2 l3) : Extends P l1 l3 := by
  obtain ⟨m, rfl, hm⟩ := h12
  obtain ⟨n, rfl, hn⟩ := h23
  refine ⟨m ++ n, by simp, ?_⟩
  intro x hx
  rcases List.mem_append.mp hx with hx | hx
  · exact hm x hx
  · exact hn x hx

theorem dispatchSockets_calls (env : IterEnv) (s : LoopState) :
    (dispatchSockets env s).1.calls = s.calls ++ socketCalls env s := by
  simp only [dispatchSockets, socketCalls, call]
  split_ifs <;> simp

theorem socketCalls_no_thread_call (env : IterEnv) (s : LoopState) :
    ∀ c ∈ socketCalls env s, c.isThreadCall = false := by
  simp only [socketCalls]
  split_ifs <;> simp [Call.isThreadCall]

theorem outputThreadCheck_calls (K : Modes) (env : IterEnv) (s : LoopState) :
    (outputThreadCheck K env s).calls = s.calls ++ threadCalls K env := by
  simp only [outputThreadCheck, threadCalls, call]
  split_ifs <;> simp

theorem playerStart_calls (env : IterEnv) (s : LoopState) :
    Extends (fun c => c.isThreadCall = false) s.calls (playerStart env s).calls := by
  simp only [playerStart, call]
  split_ifs <;>
    simp [List.append_assoc, extends_append, extends_self, Call.isThreadCall]

theorem playerStop_calls (env : IterEnv) (s : LoopState) :
    Extends (fun c => c.isThreadCall = false) s.calls (playerStop env s).calls := by
  simp only [playerStop, call]
  split_ifs <;>
    simp [List.append_assoc, extends_append, extends_self, Call.isThreadCall]

theorem modeBlock_calls (K : Modes) (env : IterEnv) (push : Bool) (s : LoopState) :
    Extends (fun c => c.isThreadCall = false) s.calls (modeBlock K env push s).calls := by
  simp only [modeBlock, playerBlock]
  split_ifs
  · exact extends_trans (playerStart_calls env s) (playerStop_calls env _)
  all_goals simp [call, extends_append, extends_self, Call.isThreadCall]

theorem iteration_calls (K : Modes) (env : IterEnv) (s : LoopState)
    (hsel : 0 ≤ env.selectResult) :
    ∃ m, (iteration K env s).calls = s.calls ++ socketCalls env s ++ threadCalls K env ++ m ∧
      ∀ c ∈ m, c.isThreadCall = false := by
  obtain ⟨m, hm, hP⟩ := modeBlock_calls K env (dispatchSockets env s).2
    (outputThreadCheck K env (dispatchSockets env s).1)
  refine ⟨m ++ [Call.CheckGPIOInputs], ?_, ?_⟩
  · simp only [iteration, not_lt.mpr hsel, if_false, call, hm, outputThreadCheck_calls,
      dispatchSockets_calls, List.append_assoc]
  · intro c hc
    rcases List.mem_append.mp hc with hc | hc
    · exact hP c hc
    · rw [List.mem_singleton.mp hc]; rfl

/-- C10. In a pass that gets past `select`, the output thread is started exactly when
no output thread is running, the mode is not bridge mode, and memory-mapped input is in
use or a channel test is in progress or always-transmit is set; when it is started, the
call that precedes the start sets the refresh rate to `1000 / I`, where `I` is the
setting `E131BridgingInterval`, or 50 when the setting is 0, and no other start is
made in the pass; `I` is never 0, and the rate of the default is 20. -/
theorem output_thread_started_exactly_when_needed (K : Modes) (env : IterEnv)
    (s : LoopState) (hsel : 0 ≤ env.selectResult) :
    (Call.StartChannelOutputThread ∈ callsOf K env s ↔
      (env.threadIsRunning = false ∧ env.fppMode ≠ K.BRIDGE_MODE ∧
        (env.usingMemoryMapInput = true ∨ env.testing = true ∨
          env.alwaysTransmit = true))) ∧
    (Call.StartChannelOutputThread ∈ callsOf K env s →
      ∃ pre post, callsOf K env s =
          pre ++ [Call.SetChannelOutputRefreshRate (Int.tdiv 1000
              (if env.E131BridgingInterval = 0 then 50 else env.E131BridgingInterval)),
            Call.StartChannelOutputThread] ++ post ∧
        Call.StartChannelOutputThread ∉ pre ∧ Call.StartChannelOutputThread ∉ post) ∧
    (if env.E131BridgingInterval = 0 then 50 else env.E131BridgingInterval) ≠ 0 ∧
    (env.E131BridgingInterval = 0 →
      Int.tdiv 1000 (if env.E131BridgingInterval = 0 then 50 else env.E131BridgingInterval)
        = 20) := by
  obtain ⟨m, hm, hP⟩ := iteration_calls K env { s with calls := [] } hsel
  have hcalls : callsOf K env s = socketCalls env s ++ threadCalls K env ++ m := by
    simpa [callsOf, socketCalls] using hm
  have hpre : Call.StartChannelOutputThread ∉ socketCalls env s := fun h =>
    absurd (socketCalls_no_thread_call env s _ h) (by decide)
  have hpost : Call.StartChannelOutputThread ∉ m := fun h => absurd (hP _ h) (by decide)
  have hneed : needOutputThread K env = true ↔
      (env.threadIsRunning = false ∧ env.fppMode ≠ K.BRIDGE_MODE ∧
        (env.usingMemoryMapInput = true ∨ env.testing = true ∨
          env.alwaysTransmit = true)) := by
    simp [needOutputThread, and_assoc, or_assoc]
  have hmem : Call.StartChannelOutputThread ∈ callsOf K env s ↔
      needOutputThread K env = true := by
    rw [hcalls]
    by_cases hn : needOutputThread K env = true
    · simp [threadCalls, hn]
    · simp [threadCalls, hn, hpre, hpost]
  refine ⟨hmem.trans hneed, ?_, ?_, ?_⟩
  · intro h
    have hn := hmem.mp h
    refine ⟨socketCalls env s, m, ?_, hpre, hpost⟩
    rw [hcalls]
    simp [threadCalls, hn, bridgingInterval]
  · split_ifs with h0
    · decide
    · exact h0
  · intro h0
    rw [if_pos h0]
    decide

/-- C10, witness: a pass in player mode with always-transmit set and no output thread
running. -/
theorem output_thread_started_exactly_when_needed_witness :
    (0 : Int) ≤ ({ quietPlayerEnv with alwaysTransmit := true } : IterEnv).selectResult ∧
    callsOf fppModes { quietPlayerEnv with alwaysTransmit := true } (idleEntry 5 0 0) =
      [Call.SetChannelOutputRefreshRate 20, Call.StartChannelOutputThread,
        Call.ScheduleProc, Call.CheckGPIOInputs] ∧
    (Call.StartChannelOutputThread ∈
        callsOf fppModes { quietPlayerEnv with alwaysTransmit := true } (idleEntry 5 0 0) ↔
      (({ quietPlayerEnv with alwaysTransmit := true } : IterEnv).threadIsRunning = false ∧
        ({ quietPlayerEnv with alwaysTransmit := true } : IterEnv).fppMode ≠
          fppModes.BRIDGE_MODE ∧
        (({ quietPlayerEnv with alwaysTransmit := true } : IterEnv).usingMemoryMapInput
            = true ∨
          ({ quietPlayerEnv with alwaysTransmit := true } : IterEnv).testing = true ∨
          ({ quietPlayerEnv with alwaysTransmit := true } : IterEnv).alwaysTransmit
            = true))) :=
  ⟨by decide, by decide,
    (output_thread_started_exactly_when_needed fppModes
      { quietPlayerEnv with alwaysTransmit := true } (idleEntry 5 0 0) (by decide)).1⟩

theorem dispatchSockets_quiet (env : IterEnv) (s : LoopState)
    (heff : ∀ c st, env.effect c st = st) :
    (dispatchSockets env s).1 = { s with calls := s.calls ++ socketCalls env s } := by
  simp only [dispatchSockets, socketCalls, call, heff]
  split_ifs <;> simp

theorem outputThreadCheck_quiet (K : Modes) (env : IterEnv) (s : LoopState)
    (heff : ∀ c st, env.effect c st = st) :
    outputThreadCheck K env s = { s with calls := s.calls ++ threadCalls K env } := by
  simp only [outputThreadCheck, threadCalls, call, heff]
  split_ifs <;> simp

theorem playerBlock_quiet (env : IterEnv) (s : LoopState)
    (heff : ∀ c st, env.effect c st = st) (hforce : env.forceStop = false) :
    (playerBlock env s).FPPstatus = s.FPPstatus ∧
    (playerBlock env s).prevFPPstatus = s.FPPstatus ∧
    (playerBlock env s).calls = s.calls ++ playerCalls s.FPPstatus s.prevFPPstatus := by
  obtain ⟨st, prev, sl, run, cs, bs, ds, calls⟩ := s
  cases st <;> cases prev <;>
    simp [playerBlock, playerStart, playerStop, playerCalls, call, heff, hforce, isActive]

/-- A pass in player mode in which no collaborator changes the status and no stop is
forced: the status is kept, the previous status becomes the status, and the calls are
those of the sockets, of the output thread and of the player-mode block. -/
theorem iteration_quiet (K : Modes) (env : IterEnv) (s : LoopState)
    (hsel : 0 ≤ env.selectResult) (hmode : env.fppMode &&& K.PLAYER_MODE ≠ 0)
    (heff : ∀ c st, env.effect c st = st) (hforce : env.forceStop = false) :
    (iteration K env s).FPPstatus = s.FPPstatus ∧
    (iteration K env s).prevFPPstatus = s.FPPstatus ∧
    (iteration K env s).calls = s.calls ++ socketCalls env s ++ threadCalls K env ++
      playerCalls s.FPPstatus s.prevFPPstatus ++ [Call.CheckGPIOInputs] := by
  have h := playerBlock_quiet env
    (outputThreadCheck K env (dispatchSockets env s).1) heff hforce
  rw [outputThreadCheck_quiet K env _ heff, dispatchSockets_quiet env s heff] at h
  simp only [iteration, not_lt.mpr hsel, if_false, modeBlock, hmode, ne_eq, not_false_eq_true,
    if_true, call, heff]
  rw [outputThreadCheck_quiet K env _ heff, dispatchSockets_quiet env s heff]
  obtain ⟨h1, h2, h3⟩ := h
  exact ⟨h1, h2, by rw [h3]⟩

theorem count_socketCalls (env : IterEnv) (s : LoopState) (c : Call)
    (hc : c = .playlist_Start ∨ c = .playlist_Cleanup ∨ c = .CheckIfShouldBePlayingNow) :
    List.count c (socketCalls env s) = 0 := by
  simp only [socketCalls]
  rcases hc with rfl | rfl | rfl <;> split_ifs <;> decide

theorem count_threadCalls (K : Modes) (env : IterEnv) (c : Call)
    (hc : c = .playlist_Start ∨ c = .playlist_Cleanup ∨ c = .CheckIfShouldBePlayingNow) :
    List.count c (threadCalls K env) = 0 := by
  simp only [threadCalls]
  rcases hc with rfl | rfl | rfl <;> split_ifs <;> simp

/-- The calls of one pass in player mode, counted. -/
theorem count_callsOf_quiet (K : Modes) (env : IterEnv) (s : LoopState)
    (hsel : 0 ≤ env.selectResult) (hmode : env.fppMode &&& K.PLAYER_MODE ≠ 0)
    (heff : ∀ c st, env.effect c st = st) (hforce : env.forceStop = false) (c : Call)
    (hc : c = .playlist_Start ∨ c = .playlist_Cleanup ∨ c = .CheckIfShouldBePlayingNow) :
    List.count c (callsOf K env s) = List.count c (playerCalls s.FPPstatus s.prevFPPstatus) := by
  have h := (iteration_quiet K env { s with calls := [] } hsel hmode heff hforce).2.2
  simp only [callsOf, h, List.nil_append, List.count_append]
  have h1 := count_socketCalls env { s with calls := [] } c hc
  have h2 := count_threadCalls K env c hc
  rw [h1, h2]
  rcases hc with rfl | rfl | rfl <;> simp

theorem runLoop_status (K : Modes) (envs : Nat → IterEnv) (ext : Nat → Status)
    (s0 : LoopState) (k : Nat) : (runLoop K envs ext s0 k).FPPstatus = ext k := by
  cases k <;> rfl

theorem runLoop_prev (K : Modes) (envs : Nat → IterEnv) (ext : Nat → Status)
    (s0 : LoopState)
    (hsel : ∀ k, 0 ≤ (envs k).selectResult)
    (hmode : ∀ k, (envs k).fppMode &&& K.PLAYER_MODE ≠ 0)
    (heff : ∀ k c st, (envs k).effect c st = st)
    (hforce : ∀ k, (envs k).forceStop = false) (k : Nat) :
    (runLoop K envs ext s0 (k + 1)).prevFPPstatus = ext k := by
  have h := (iteration_quiet K (envs k) (runLoop K envs ext s0 k) (hsel k) (hmode k)
    (heff k) (hforce k)).2.1
  rw [runLoop_status] at h
  simpa [runLoop] using h

/-- C9. One pass in player mode, with collaborators that leave the status alone and no
forced stop, calls `playlist->Start()` once when the status is playing or stopping
gracefully and the previous status is idle, and not otherwise; it calls
`playlist->Cleanup()` and `CheckIfShouldBePlayingNow` once each when the status is idle
and the previous status is playing or stopping gracefully, and not otherwise. Hence in
a run entered idle, in which the status is written to playing before pass `N` and back
to idle before pass `N + 5`, `Start` is called once in pass `N` and in no other pass,
`Cleanup` and the re-check once in pass `N + 5` and in no other pass. -/
theorem playlist_start_and_cleanup_once_per_transition (K : Modes)
    (envs : Nat → IterEnv) (s0 : LoopState) (N k : Nat) (s : LoopState)
    (hsel : ∀ j, 0 ≤ (envs j).selectResult)
    (hmode : ∀ j, (envs j).fppMode &&& K.PLAYER_MODE ≠ 0)
    (heff : ∀ j c st, (envs j).effect c st = st)
    (hforce : ∀ j, (envs j).forceStop = false)
    (hentry : s0.prevFPPstatus = .FPP_STATUS_IDLE) :
    (List.count .playlist_Start (callsOf K (envs k) s) =
        (if (s.FPPstatus = .FPP_STATUS_PLAYLIST_PLAYING ∨
              s.FPPstatus = .FPP_STATUS_STOPPING_GRACEFULLY) ∧
            s.prevFPPstatus = .FPP_STATUS_IDLE then 1 else 0) ∧
      List.count .playlist_Cleanup (callsOf K (envs k) s) =
        (if s.FPPstatus = .FPP_STATUS_IDLE ∧
            (s.prevFPPstatus = .FPP_STATUS_PLAYLIST_PLAYING ∨
              s.prevFPPstatus = .FPP_STATUS_STOPPING_GRACEFULLY) then 1 else 0) ∧
      List.count .CheckIfShouldBePlayingNow (callsOf K (envs k) s) =
        (if s.FPPstatus = .FPP_STATUS_IDLE ∧
            (s.prevFPPstatus = .FPP_STATUS_PLAYLIST_PLAYING ∨
              s.prevFPPstatus = .FPP_STATUS_STOPPING_GRACEFULLY) then 1 else 0)) ∧
    (List.count .playlist_Start
        (callsOf K (envs k) (runLoop K envs (scenarioStatus N) s0 k)) =
        (if k = N then 1 else 0) ∧
      List.count .playlist_Cleanup
        (callsOf K (envs k) (runLoop K envs (scenarioStatus N) s0 k)) =
        (if k = N + 5 then 1 else 0) ∧
      List.count .CheckIfShouldBePlayingNow
        (callsOf K (envs k) (runLoop K envs (scenarioStatus N) s0 k)) =
        (if k = N + 5 then 1 else 0)) := by
  have hone : ∀ t : LoopState,
      List.count .playlist_Start (callsOf K (envs k) t) =
        (if (t.FPPstatus = .FPP_STATUS_PLAYLIST_PLAYING ∨
              t.FPPstatus = .FPP_STATUS_STOPPING_GRACEFULLY) ∧
            t.prevFPPstatus = .FPP_STATUS_IDLE then 1 else 0) ∧
      List.count .playlist_Cleanup (callsOf K (envs k) t) =
        (if t.FPPstatus = .FPP_STATUS_IDLE ∧
            (t.prevFPPstatus = .FPP_STATUS_PLAYLIST_PLAYING ∨
              t.prevFPPstatus = .FPP_STATUS_STOPPING_GRACEFULLY) then 1 else 0) ∧
      List.count .CheckIfShouldBePlayingNow (callsOf K (envs k) t) =
        (if t.FPPstatus = .FPP_STATUS_IDLE ∧
            (t.prevFPPstatus = .FPP_STATUS_PLAYLIST_PLAYING ∨
              t.prevFPPstatus = .FPP_STATUS_STOPPING_GRACEFULLY) then 1 else 0) := by
    intro t
    rw [count_callsOf_quiet K (envs k) t (hsel k) (hmode k) (heff k) (hforce k) _
        (Or.inl rfl),
      count_callsOf_quiet K (envs k) t (hsel k) (hmode k) (heff k) (hforce k) _
        (Or.inr (Or.inl rfl)),
      count_callsOf_quiet K (envs k) t (hsel k) (hmode k) (heff k) (hforce k) _
        (Or.inr (Or.inr rfl))]
    cases t.FPPstatus <;> cases t.prevFPPstatus <;> simp [playerCalls, isActive]
  refine ⟨hone s, ?_⟩
  have hst := runLoop_status K envs (scenarioStatus N) s0 k
  have hpv : (runLoop K envs (scenarioStatus N) s0 k).prevFPPstatus =
      if k = 0 then .FPP_STATUS_IDLE else scenarioStatus N (k - 1) := by
    cases k with
    | zero => simpa [runLoop] using hentry
    | succ j => simpa using runLoop_prev K envs (scenarioStatus N) s0 hsel hmode heff hforce j
  obtain ⟨h1, h2, h3⟩ := hone (runLoop K envs (scenarioStatus N) s0 k)
  rw [h1, h2, h3, hst, hpv]
  simp only [scenarioStatus]
  refine ⟨?_, ?_, ?_⟩ <;> split_ifs <;> first | rfl | omega | simp_all

/-- C9, witness: passes in player mode in which nothing is ready, from an idle entry,
with the status written to playing before pass 3; pass 3 itself. -/
theorem playlist_start_and_cleanup_once_per_transition_witness :
    (∀ j : Nat, 0 ≤ ((fun _ => quietPlayerEnv) j : IterEnv).selectResult) ∧
    (∀ j : Nat, ((fun _ => quietPlayerEnv) j : IterEnv).fppMode &&& fppModes.PLAYER_MODE ≠ 0) ∧
    (∀ (j : Nat) (c : Call) (st : Status),
      ((fun _ => quietPlayerEnv) j : IterEnv).effect c st = st) ∧
    (∀ j : Nat, ((fun _ => quietPlayerEnv) j : IterEnv).forceStop = false) ∧
    (idleEntry 5 0 0).prevFPPstatus = .FPP_STATUS_IDLE ∧
    List.count .playlist_Start
      (callsOf fppModes quietPlayerEnv
        (runLoop fppModes (fun _ => quietPlayerEnv) (scenarioStatus 3) (idleEntry 5 0 0) 3))
      = 1 :=
  ⟨fun _ => (by decide : (0 : Int) ≤ quietPlayerEnv.selectResult),
    fun _ => (by decide : quietPlayerEnv.fppMode &&& fppModes.PLAYER_MODE ≠ 0),
    fun _ _ _ => rfl, fun _ => rfl, rfl,
    (playlist_start_and_cleanup_once_per_transition fppModes (fun _ => quietPlayerEnv)
      (idleEntry 5 0 0) 3 3 (idleEntry 5 0 0)
      (fun _ => (by decide : (0 : Int) ≤ quietPlayerEnv.selectResult))
      (fun _ => (by decide : quietPlayerEnv.fppMode &&& fppModes.PLAYER_MODE ≠ 0))
      (fun _ _ _ => rfl) (fun _ => rfl) rfl).2.1⟩

/-! ## The main loop: the bridge flush and the wait timeout -/

theorem playerStart_extends (P : Call → Prop) (env : IterEnv) (s : LoopState)
    (h1 : P .playlist_Start) (h2 : P .playlist_Process) :
    Extends P s.calls (playerStart env s).calls := by
  simp only [playerStart, call]
  split_ifs <;> simp [List.append_assoc, extends_append, extends_self, h1, h2]

theorem playerStop_extends (P : Call → Prop) (env : IterEnv) (s : LoopState)
    (h1 : P .playlist_Cleanup) (h2 : P .ReLoadCurrentScheduleInfo)
    (h3 : P .CheckIfShouldBePlayingNow) (h4 : P .ScheduleProc) :
    Extends P s.calls (playerStop env s).calls := by
  simp only [playerStop, call]
  split_ifs <;> simp [List.append_assoc, extends_append, extends_self, h1, h2, h3, h4]

/-- The player-mode block never calls `ForceChannelOutputNow`. -/
theorem playerBlock_count_force (env : IterEnv) (s : LoopState) :
    List.count .ForceChannelOutputNow (playerBlock env s).calls =
      List.count .ForceChannelOutputNow s.calls := by
  have h := extends_trans
    (playerStart_extends (fun c => c ≠ .ForceChannelOutputNow) env s (by decide) (by decide))
    (playerStop_extends (fun c => c ≠ .ForceChannelOutputNow) env (playerStart env s)
      (by decide) (by decide) (by decide) (by decide))
  obtain ⟨m, hm, hP⟩ := h
  show List.count _ (playerStop env (playerStart env s)).calls = _
  rw [hm, List.count_append]
  have : List.count Call.ForceChannelOutputNow m = 0 :=
    List.count_eq_zero.mpr (fun hmem => hP _ hmem rfl)
  omega

/-- The value of `pushBridgeData` after the socket part of the body. -/
theorem dispatchSockets_push (env : IterEnv) (s : LoopState) :
    (dispatchSockets env s).2 = true ↔
      ((s.bridgeSock ≠ 0 ∧ env.bridgeReady = true ∧ env.e131NewData = true) ∨
        (s.ddpSock ≠ 0 ∧ env.ddpReady = true ∧ env.ddpNewData = true)) := by
  simp only [dispatchSockets, call]
  split_ifs <;> simp_all

theorem count_force_socketCalls (env : IterEnv) (s : LoopState) :
    List.count .ForceChannelOutputNow (socketCalls env s) = 0 := by
  simp only [socketCalls]
  split_ifs <;> decide

theorem count_force_threadCalls (K : Modes) (env : IterEnv) :
    List.count .ForceChannelOutputNow (threadCalls K env) = 0 := by
  simp only [threadCalls]
  split_ifs <;> simp

/-- C13. In a pass that gets past `select`, with mode constants for which bridge mode
is neither a player mode nor remote mode, `ForceChannelOutputNow` is called once when
the mode is bridge mode and one of the bridge receivers that ran (the E1.31 receiver on
a present and ready bridge socket, the DDP receiver on a present and ready DDP socket)
reported new data, and is not called otherwise. -/
theorem force_output_once_on_new_bridge_data (K : Modes) (env : IterEnv) (s : LoopState)
    (hsel : 0 ≤ env.selectResult) (hplayer : K.BRIDGE_MODE &&& K.PLAYER_MODE = 0)
    (hremote : K.BRIDGE_MODE ≠ K.REMOTE_MODE) :
    List.count .ForceChannelOutputNow (callsOf K env s) =
      if env.fppMode = K.BRIDGE_MODE ∧
          ((s.bridgeSock ≠ 0 ∧ env.bridgeReady = true ∧ env.e131NewData = true) ∨
            (s.ddpSock ≠ 0 ∧ env.ddpReady = true ∧ env.ddpNewData = true)) then 1
      else 0 := by
  have hpush := dispatchSockets_push env { s with calls := [] }
  have hsock := dispatchSockets_calls env { s with calls := [] }
  have hthread := outputThreadCheck_calls K env (dispatchSockets env { s with calls := [] }).1
  have hbase : List.count .ForceChannelOutputNow
      (outputThreadCheck K env (dispatchSockets env { s with calls := [] }).1).calls = 0 := by
    rw [hthread, hsock, List.count_append, List.count_append, count_force_threadCalls,
      count_force_socketCalls]
    rfl
  have hiter : (callsOf K env s) =
      (modeBlock K env (dispatchSockets env { s with calls := [] }).2
        (outputThreadCheck K env (dispatchSockets env { s with calls := [] }).1)).calls ++
        [Call.CheckGPIOInputs] := by
    simp only [callsOf, iteration, not_lt.mpr hsel, if_false, call]
  rw [hiter, List.count_append]
  have hno : env.fppMode ≠ K.BRIDGE_MODE →
      ¬ (env.fppMode = K.BRIDGE_MODE ∧
        ((s.bridgeSock ≠ 0 ∧ env.bridgeReady = true ∧ env.e131NewData = true) ∨
          (s.ddpSock ≠ 0 ∧ env.ddpReady = true ∧ env.ddpNewData = true))) :=
    fun hnb h => hnb h.1
  have hgpio : List.count Call.ForceChannelOutputNow [Call.CheckGPIOInputs] = 0 := by decide
  rw [hgpio, Nat.add_zero]
  simp only [modeBlock]
  by_cases hpm : env.fppMode &&& K.PLAYER_MODE ≠ 0
  · rw [if_pos hpm, playerBlock_count_force, hbase]
    have hnb : env.fppMode ≠ K.BRIDGE_MODE := by
      intro h
      rw [h] at hpm
      exact hpm hplayer
    rw [if_neg (hno hnb)]
  · rw [if_neg hpm]
    by_cases hrm : env.fppMode = K.REMOTE_MODE
    · rw [if_pos hrm]
      have hnb : env.fppMode ≠ K.BRIDGE_MODE := by
        intro h
        exact hremote (h.symm.trans hrm)
      rw [if_neg (hno hnb)]
      split_ifs
      · simp only [call, List.count_append, hbase]
        decide
      · exact hbase
    · rw [if_neg hrm]
      by_cases hb : env.fppMode = K.BRIDGE_MODE ∧
          (dispatchSockets env { s with calls := [] }).2 = true
      · rw [if_pos hb, if_pos ⟨hb.1, hpush.mp hb.2⟩]
        simp only [call, List.count_append, hbase]
        decide
      · rw [if_neg hb, if_neg (fun h => hb ⟨h.1, hpush.mpr h.2⟩)]
        exact hbase

/-- C13, witness: a pass in bridge mode in which the bridge socket is present and
ready and the E1.31 receiver reports new data. -/
theorem force_output_once_on_new_bridge_data_witness :
    (0 : Int) ≤ bridgeDataEnv.selectResult ∧
    fppModes.BRIDGE_MODE &&& fppModes.PLAYER_MODE = 0 ∧
    fppModes.BRIDGE_MODE ≠ fppModes.REMOTE_MODE ∧
    callsOf fppModes bridgeDataEnv (idleEntry 5 6 0) =
      [Call.Bridge_ReceiveE131Data, Call.ForceChannelOutputNow, Call.CheckGPIOInputs] ∧
    List.count .ForceChannelOutputNow (callsOf fppModes bridgeDataEnv (idleEntry 5 6 0)) =
      if bridgeDataEnv.fppMode = fppModes.BRIDGE_MODE ∧
          (((idleEntry 5 6 0).bridgeSock ≠ 0 ∧ bridgeDataEnv.bridgeReady = true ∧
              bridgeDataEnv.e131NewData = true) ∨
            ((idleEntry 5 6 0).ddpSock ≠ 0 ∧ bridgeDataEnv.ddpReady = true ∧
              bridgeDataEnv.ddpNewData = true)) then 1
      else 0 :=
  ⟨by decide, by decide, by decide, by decide,
    force_output_once_on_new_bridge_data fppModes bridgeDataEnv (idleEntry 5 6 0)
      (by decide) (by decide) (by decide)⟩

theorem playerStop_eq_update (env : IterEnv) (s : LoopState) :
    playerStop env s = call env .ScheduleProc (playerUpdate env s) := rfl

theorem blockStart_fields (K : Modes) (env : IterEnv) (s : LoopState) :
    (blockStart K env s).prevFPPstatus = s.prevFPPstatus ∧
    (blockStart K env s).sleepms = s.sleepms := by
  simp only [blockStart, outputThreadCheck, dispatchSockets, call]
  split_ifs <;> exact ⟨rfl, rfl⟩

theorem playerStart_fields (env : IterEnv) (s : LoopState) :
    (playerStart env s).prevFPPstatus = s.prevFPPstatus ∧
    (playerStart env s).sleepms =
      (if isActive s.FPPstatus = true ∧ s.prevFPPstatus = .FPP_STATUS_IDLE then 10000
       else s.sleepms) ∧
    (isActive s.FPPstatus = false → (playerStart env s).FPPstatus = s.FPPstatus) := by
  simp only [playerStart, call]
  split_ifs <;> simp_all

theorem playerUpdate_fields (env : IterEnv) (s : LoopState) :
    ((playerUpdate env s).sleepms = s.sleepms ∨
      ((playerUpdate env s).sleepms = 50000 ∧
        (playerUpdate env s).FPPstatus = .FPP_STATUS_IDLE)) ∧
    ((playerUpdate env s).prevFPPstatus = (playerUpdate env s).FPPstatus ∨
      (playerUpdate env s).prevFPPstatus = .FPP_STATUS_IDLE) ∧
    ((playerUpdate env s).FPPstatus = .FPP_STATUS_IDLE →
      isActive s.prevFPPstatus = true → (playerUpdate env s).sleepms = 50000) ∧
    (isActive s.prevFPPstatus = false →
      (playerUpdate env s).FPPstatus = s.FPPstatus) := by
  simp only [playerUpdate, call]
  split_ifs <;> simp_all

theorem isActive_idle_iff (st : Status) :
    isActive st = false ↔ st = .FPP_STATUS_IDLE := by
  cases st <;> simp [isActive]

/-- One status block from a state in which the timeout is as the loop keeps it: at the
update of `prevFPPstatus` the timeout is again so, it is 10000 when the status is
playing or stopping gracefully, and it is 50000 when the status is idle unless the block
began with the previous status idle and with a status other than idle or a timeout of
10000. -/
theorem status_block_timeout (env : IterEnv) (b : LoopState) (hinv : TimeoutInv b) :
    TimeoutInv (playerUpdate env (playerStart env b)) ∧
    (isActive (playerUpdate env (playerStart env b)).FPPstatus = true →
      (playerUpdate env (playerStart env b)).sleepms = 10000) ∧
    ((playerUpdate env (playerStart env b)).FPPstatus = .FPP_STATUS_IDLE →
      ¬ (b.prevFPPstatus = .FPP_STATUS_IDLE ∧
        (isActive b.FPPstatus = true ∨ b.sleepms = 10000)) →
      (playerUpdate env (playerStart env b)).sleepms = 50000) := by
  obtain ⟨hset, hact⟩ := hinv
  obtain ⟨a1, a2, a3⟩ := playerStart_fields env b
  obtain ⟨u1, u2, u3, u4⟩ := playerUpdate_fields env (playerStart env b)
  rw [a1] at u3 u4
  have part1 : isActive (playerUpdate env (playerStart env b)).FPPstatus = true →
      (playerUpdate env (playerStart env b)).sleepms = 10000 := by
    intro hu
    have hne : (playerUpdate env (playerStart env b)).FPPstatus ≠ .FPP_STATUS_IDLE := by
      intro h
      rw [h] at hu
      exact absurd hu (by decide)
    have hsame : (playerUpdate env (playerStart env b)).sleepms =
        (playerStart env b).sleepms := by
      rcases u1 with h | ⟨-, h⟩
      · exact h
      · exact absurd h hne
    rw [hsame, a2]
    by_cases hp : isActive b.prevFPPstatus = true
    · rw [hact hp]
      split_ifs <;> rfl
    · have hp' : isActive b.prevFPPstatus = false := by simpa using hp
      have hidle := (isActive_idle_iff _).mp hp'
      by_cases hb : isActive b.FPPstatus = true
      · rw [if_pos ⟨hb, hidle⟩]
      · have hb' : isActive b.FPPstatus = false := by simpa using hb
        have h1 := a3 hb'
        have h2 := u4 hp'
        rw [h2, h1] at hu
        exact absurd hu hb
  refine ⟨⟨?_, ?_⟩, part1, ?_⟩
  · rcases u1 with h | ⟨h, -⟩
    · rw [h, a2]
      split_ifs
      · exact Or.inl rfl
      · exact hset
    · exact Or.inr h
  · intro hp
    rcases u2 with h | h
    · rw [h] at hp
      exact part1 hp
    · rw [h] at hp
      exact absurd hp (by decide)
  · intro hidle hex
    by_cases hp : isActive b.prevFPPstatus = true
    · exact u3 hidle hp
    · have hp' : isActive b.prevFPPstatus = false := by simpa using hp
      have hpi := (isActive_idle_iff _).mp hp'
      have hb : ¬ isActive b.FPPstatus = true := fun h => hex ⟨hpi, Or.inl h⟩
      have hs : b.sleepms ≠ 10000 := fun h => hex ⟨hpi, Or.inr h⟩
      have hs50 : b.sleepms = 50000 := by
        rcases hset with h | h
        · exact absurd h hs
        · exact h
      rcases u1 with h | ⟨h, -⟩
      · rw [h, a2, if_neg (fun hc => hb hc.1), hs50]
      · exact h

/-- The previous status and the timeout after a pass: those of the update point when
the pass has one, those before the pass otherwise. -/
theorem iteration_timeout_fields (K : Modes) (env : IterEnv) (s : LoopState) :
    (∀ u, updatePoint K env s = some u →
      (iteration K env s).prevFPPstatus = u.prevFPPstatus ∧
      (iteration K env s).sleepms = u.sleepms) ∧
    (updatePoint K env s = none →
      (iteration K env s).prevFPPstatus = s.prevFPPstatus ∧
      (iteration K env s).sleepms = s.sleepms) := by
  obtain ⟨b1, b2⟩ := blockStart_fields K env s
  unfold updatePoint iteration
  by_cases hsel : env.selectResult < 0
  · simp only [hsel, if_true]
    refine ⟨fun u hu => absurd hu (by simp), fun _ => ?_⟩
    split_ifs <;> exact ⟨rfl, rfl⟩
  · simp only [hsel, if_false, modeBlock]
    by_cases hpm : env.fppMode &&& K.PLAYER_MODE ≠ 0
    · simp only [hpm, ne_eq, not_false_eq_true, if_true]
      refine ⟨fun u hu => ?_, fun hu => absurd hu (by simp)⟩
      simp only [Option.some.injEq] at hu
      subst hu
      exact ⟨rfl, rfl⟩
    · simp only [hpm, if_false]
      refine ⟨fun u hu => absurd hu (by simp), fun _ => ?_⟩
      simp only [blockStart] at b1 b2
      split_ifs <;> simp only [call] <;> exact ⟨b1, b2⟩

theorem runPasses_timeout (K : Modes) (envs : Nat → IterEnv) (s0 : LoopState)
    (h0 : TimeoutInv s0) (k : Nat) : TimeoutInv (runPasses K envs s0 k) := by
  induction k with
  | zero => exact h0
  | succ k ih =>
    show TimeoutInv (iteration K (envs k) (runPasses K envs s0 k))
    obtain ⟨hsome, hnone⟩ := iteration_timeout_fields K (envs k) (runPasses K envs s0 k)
    cases hu : updatePoint K (envs k) (runPasses K envs s0 k) with
    | none =>
      obtain ⟨e1, e2⟩ := hnone hu
      unfold TimeoutInv
      rw [e1, e2]
      exact ih
    | some u =>
      obtain ⟨e1, e2⟩ := hsome u hu
      have hub : u = playerUpdate (envs k) (playerStart (envs k)
          (blockStart K (envs k) (runPasses K envs s0 k))) := by
        unfold updatePoint at hu
        split_ifs at hu
        simp only [Option.some.injEq] at hu
        exact hu.symm
      obtain ⟨b1, b2⟩ := blockStart_fields K (envs k) (runPasses K envs s0 k)
      have hb : TimeoutInv (blockStart K (envs k) (runPasses K envs s0 k)) := by
        unfold TimeoutInv
        rw [b1, b2]
        exact ih
      have := (status_block_timeout (envs k) _ hb).1
      rw [← hub] at this
      unfold TimeoutInv
      rw [e1, e2]
      exact this

/-- C11, as amended. In a run entered with the status idle, whatever the collaborators
do to the status, at the point of each pass where `prevFPPstatus` is updated the wait
timeout is 10000 when the status is playing or stopping gracefully, and it is 50000 when
the status is idle, except in a pass whose status block began with the previous status
idle and with a status other than idle (the pass called `playlist->Start()`) or with
the timeout already at 10000. -/
theorem wait_timeout_at_update (K : Modes) (envs : Nat → IterEnv) (s0 : LoopState)
    (k : Nat) (u : LoopState)
    (hprev : s0.prevFPPstatus = .FPP_STATUS_IDLE) (hsleep : s0.sleepms = 50000)
    (hu : updatePoint K (envs k) (runPasses K envs s0 k) = some u) :
    (isActive u.FPPstatus = true → u.sleepms = 10000) ∧
    (u.FPPstatus = .FPP_STATUS_IDLE →
      ¬ ((blockStart K (envs k) (runPasses K envs s0 k)).prevFPPstatus = .FPP_STATUS_IDLE ∧
        (isActive (blockStart K (envs k) (runPasses K envs s0 k)).FPPstatus = true ∨
          (blockStart K (envs k) (runPasses K envs s0 k)).sleepms = 10000)) →
      u.sleepms = 50000) := by
  have h0 : TimeoutInv s0 := by
    unfold TimeoutInv
    rw [hprev, hsleep]
    exact ⟨Or.inr rfl, fun h => absurd h (by decide)⟩
  have ih := runPasses_timeout K envs s0 h0 k
  obtain ⟨b1, b2⟩ := blockStart_fields K (envs k) (runPasses K envs s0 k)
  have hb : TimeoutInv (blockStart K (envs k) (runPasses K envs s0 k)) := by
    unfold TimeoutInv
    rw [b1, b2]
    exact ih
  have hub : u = playerUpdate (envs k) (playerStart (envs k)
      (blockStart K (envs k) (runPasses K envs s0 k))) := by
    unfold updatePoint at hu
    split_ifs at hu
    simp only [Option.some.injEq] at hu
    exact hu.symm
  obtain ⟨-, p1, p2⟩ := status_block_timeout (envs k) _ hb
  rw [← hub] at p1 p2
  exact ⟨p1, p2⟩

/-- C11, witness: passes in player mode in which nothing is ready, a loop entered idle
in which the calls before the loop start a playlist; the first pass. -/
theorem wait_timeout_at_update_witness :
    (loopEntry .FPP_STATUS_IDLE .FPP_STATUS_PLAYLIST_PLAYING 5 0 0).prevFPPstatus =
      .FPP_STATUS_IDLE ∧
    (loopEntry .FPP_STATUS_IDLE .FPP_STATUS_PLAYLIST_PLAYING 5 0 0).sleepms = 50000 ∧
    updatePoint fppModes quietPlayerEnv
        (runPasses fppModes (fun _ => quietPlayerEnv)
          (loopEntry .FPP_STATUS_IDLE .FPP_STATUS_PLAYLIST_PLAYING 5 0 0) 0) =
      some (playerUpdate quietPlayerEnv (playerStart quietPlayerEnv
        (loopEntry .FPP_STATUS_IDLE .FPP_STATUS_PLAYLIST_PLAYING 5 0 0))) ∧
    (playerUpdate quietPlayerEnv (playerStart quietPlayerEnv
        (loopEntry .FPP_STATUS_IDLE .FPP_STATUS_PLAYLIST_PLAYING 5 0 0))).FPPstatus =
      .FPP_STATUS_PLAYLIST_PLAYING ∧
    (isActive (playerUpdate quietPlayerEnv (playerStart quietPlayerEnv
        (loopEntry .FPP_STATUS_IDLE .FPP_STATUS_PLAYLIST_PLAYING 5 0 0))).FPPstatus = true →
      (playerUpdate quietPlayerEnv (playerStart quietPlayerEnv
        (loopEntry .FPP_STATUS_IDLE .FPP_STATUS_PLAYLIST_PLAYING 5 0 0))).sleepms = 10000) :=
  ⟨rfl, rfl, rfl, rfl,
    (wait_timeout_at_update fppModes (fun _ => quietPlayerEnv)
      (loopEntry .FPP_STATUS_IDLE .FPP_STATUS_PLAYLIST_PLAYING 5 0 0) 0 _ rfl rfl rfl).1⟩

/-- C11, counterexample to the claim as stated. In a loop entered idle whose first pass
finds a playlist started and whose `playlist->Start()` puts the status back to idle,
the status is idle and the timeout 10000 at the update of `prevFPPstatus`; in a loop
entered with a playlist playing, the status is playing and the timeout 50000 there. -/
theorem wait_timeout_not_always_matched_to_status :
    (updatePoint fppModes startFailsEnv
        (loopEntry .FPP_STATUS_IDLE .FPP_STATUS_PLAYLIST_PLAYING 5 0 0)).map
      (fun u => (u.FPPstatus, u.sleepms)) = some (.FPP_STATUS_IDLE, 10000) ∧
    (updatePoint fppModes quietPlayerEnv
        (loopEntry .FPP_STATUS_PLAYLIST_PLAYING .FPP_STATUS_PLAYLIST_PLAYING 5 0 0)).map
      (fun u => (u.FPPstatus, u.sleepms)) = some (.FPP_STATUS_PLAYLIST_PLAYING, 50000) := by
  decide

/-! ## The lookup cube -/

/-- A bit field of length 0 at offset 0 adds no bit to the 16-bit word. -/
theorem orShifted_empty_field_at_zero (o v : Nat) (f : fb_bitfield) (hoff : f.offset = 0)
    (hlen : f.length = 0) : orShifted o v (fieldShift f) = o % 65536 := by
  have hs : fieldShift f = -16 := by
    simp [fieldShift, toInt32, hoff, hlen]
  rw [hs]
  unfold orShifted
  rw [if_neg (by decide)]
  apply Nat.eq_of_testBit_eq
  intro i
  have h16 : (65536 : Nat) = 2 ^ 16 := by norm_num
  rw [h16, Nat.testBit_mod_two_pow, Nat.testBit_mod_two_pow, Nat.testBit_or,
    Nat.testBit_shiftLeft]
  by_cases hi : i < 16
  · have : ¬ i ≥ (-16 : Int).natAbs := by
      have : (-16 : Int).natAbs = 16 := by decide
      omega
    simp [hi, this]
  · simp [hi]

/-- A colour component whose bit field has length 0 and offset 0 adds nothing to the
entries of the cube: two index triples that differ only in the index of that component
have the same word. -/
theorem empty_field_at_offset_zero_is_ignored (v : fb_var_screeninfo) (b g r b1 g1 r1 : Nat) :
    (v.red.offset = 0 → v.red.length = 0 → rgb565map v b g r = rgb565map v b g r1) ∧
    (v.green.offset = 0 → v.green.length = 0 → rgb565map v b g r = rgb565map v b g1 r) ∧
    (v.blue.offset = 0 → v.blue.length = 0 → rgb565map v b g r = rgb565map v b1 g r) := by
  refine ⟨fun h1 h2 => ?_, fun h1 h2 => ?_, fun h1 h2 => ?_⟩
  · simp only [rgb565map, orShifted_empty_field_at_zero _ _ v.red h1 h2]
  · simp only [rgb565map, orShifted_empty_field_at_zero _ _ v.green h1 h2]
  · simp only [rgb565map, orShifted_empty_field_at_zero _ _ v.blue h1 h2]

/-- C12, at the failing inputs. With the red field of length 0 at offset 8 the entries
`[0][0][0]` and `[0][0][1]` of the cube, which differ only in the red index, are 0 and
256; with the green field of length 0 at offset 5 the entries `[0][0][0]` and
`[0][1][0]` are 0 and 2048; with the blue field of length 0 at offset 3 the entries
`[0][0][0]` and `[1][0][0]` are 0 and 8192. -/
theorem zero_length_field_still_contributes_bits :
    (rgb565map (fieldsInfo 8 0 5 6 0 5) 0 0 0 = 0 ∧
      rgb565map (fieldsInfo 8 0 5 6 0 5) 0 0 1 = 256) ∧
    (rgb565map (fieldsInfo 11 5 5 0 0 5) 0 0 0 = 0 ∧
      rgb565map (fieldsInfo 11 5 5 0 0 5) 0 1 0 = 2048) ∧
    (rgb565map (fieldsInfo 11 5 5 6 3 0) 0 0 0 = 0 ∧
      rgb565map (fieldsInfo 11 5 5 6 3 0) 1 0 0 = 8192) := by
  decide

/-! ## Bounds of the accesses of `RawSendData` -/

/-- C14, at the failing inputs. On a valid 3 by 1 surface at 16 bits with a black
snapshot and the frame black, white, white, the third pixel is rendered with `sG` at
index 10 and `sB` at index 11 of a frame of 9 bytes and written at offset 6 of a surface
of 6 bytes, so the checked render fails. On a valid 1 by 1 surface at 24 bits with
`colorOrder=RGB`, the snapshot `3,0,0` and the frame `1,2,3`, `memcmp` is given the frame
bytes 2 to 4 of a frame of 3 bytes, so the checked render fails. -/
theorem render_accesses_leave_their_buffers :
    (ValidSurface (mkSurface 3 1 16 true false []) ∧
      (mkSurface 3 1 16 true false []).m_channelCount = 9 ∧
      (mkSurface 3 1 16 true false []).m_screenSize = 6 ∧
      (catchUp16 ((pixel16 (mkSurface 3 1 16 true false [])
        (ofList [0, 0, 0, 255, 255, 255, 255, 255, 255]))^[2]
          (start16 (mkSurface 3 1 16 true false [])))).sG = 10 ∧
      (catchUp16 ((pixel16 (mkSurface 3 1 16 true false [])
        (ofList [0, 0, 0, 255, 255, 255, 255, 255, 255]))^[2]
          (start16 (mkSurface 3 1 16 true false [])))).sB = 11 ∧
      (catchUp16 ((pixel16 (mkSurface 3 1 16 true false [])
        (ofList [0, 0, 0, 255, 255, 255, 255, 255, 255]))^[2]
          (start16 (mkSurface 3 1 16 true false [])))).d = 6 ∧
      (RawSendDataChecked (mkSurface 3 1 16 true false [])
        (ofList [0, 0, 0, 255, 255, 255, 255, 255, 255])).isNone = true) ∧
    (ValidSurface (mkSurface 1 1 24 true false [3, 0, 0]) ∧
      (mkSurface 1 1 24 true false [3, 0, 0]).m_channelCount = 3 ∧
      (RawSendDataChecked (mkSurface 1 1 24 true false [3, 0, 0])
        (ofList [1, 2, 3])).isNone = true) := by
  unfold ValidSurface
  decide

theorem loopSafe_iff {σ : Type} (step : σ → σ) (safe : σ → Bool) (n : Nat) (s : σ) :
    loopSafe step safe n s = true ↔ ∀ k, k < n → safe (step^[k] s) = true := by
  induction n generalizing s with
  | zero => simp [loopSafe]
  | succ n ih =>
    simp only [loopSafe, Bool.and_eq_true, ih]
    constructor
    · rintro ⟨h0, hk⟩ k hlt
      cases k with
      | zero => exact h0
      | succ k =>
        rw [Function.iterate_succ_apply]
        exact hk k (by omega)
    · intro h
      refine ⟨h 0 (by omega), fun k hk => ?_⟩
      have := h (k + 1) (by omega)
      rwa [Function.iterate_succ_apply] at this

/-- On a valid 24-bit surface without `m_useRGB`, inverted or not, every access of the
render lies in its buffer. -/
theorem native_paths_stay_in_bounds (o : FBMatrixOutput) (ch : Nat → Nat)
    (hv : ValidSurface o) (hbpp : o.m_bpp = 24) (hrgb : o.m_useRGB = false) :
    renderSafe o ch = true := by
  obtain ⟨w, h, rgb, inv, bpp, ss, cc, fbp, lf, cube⟩ := o
  obtain ⟨hw, hh, -, hcc, hss⟩ := hv
  simp only at hbpp hrgb hw hh hcc hss
  subst hbpp hrgb hcc
  have hstride : w * 24 / 8 = 3 * w := by omega
  have hsize : w * h * 24 / 8 = w * h * 3 := by omega
  rw [hsize] at hss
  subst hss
  simp only [renderSafe, hstride]
  rw [if_neg (by decide), if_neg (by decide)]
  cases inv with
  | false =>
    rw [if_neg (by decide)]
    simp
  | true =>
    rw [if_pos rfl]
    have e : w * 3 = 3 * w := by ring
    rw [e, loopSafe_iff]
    intro k hk
    obtain ⟨h1, h2, -⟩ := rowInv_iterate_rows ch (3 * w) h fbp k (by omega)
    have hkM : ((k : Int) + 1) * ((3 * w : Nat) : Int) ≤ (h : Int) * ((3 * w : Nat) : Int) :=
      Int.mul_le_mul_of_nonneg_right (by omega) (by omega)
    have e1 : ((k : Int) + 1) * ((3 * w : Nat) : Int) =
        (k : Int) * ((3 * w : Nat) : Int) + ((3 * w : Nat) : Int) := by ring
    have e2 : ((3 * w : Nat) : Int) * ((h : Int) - 1) =
        (h : Int) * ((3 * w : Nat) : Int) - ((3 * w : Nat) : Int) := by ring
    have e3 : ((w * h * 3 : Nat) : Int) = (h : Int) * ((3 * w : Nat) : Int) := by
      push_cast; ring
    have hsrc : k * (3 * w) + 3 * w ≤ w * h * 3 := by
      have : ((k * (3 * w) + 3 * w : Nat) : Int) ≤ ((w * h * 3 : Nat) : Int) := by
        rw [e3]; push_cast; push_cast at hkM e1; omega
      exact_mod_cast this
    simp only [rowInvSafe, h1, h2, Bool.or_eq_true, Bool.and_eq_true, decide_eq_true_eq]
    right
    refine ⟨⟨hsrc, ?_⟩, ?_⟩
    · rw [e2]; omega
    · rw [e2, e3]; omega

theorem rowStart24_at (o : FBMatrixOutput) (y : Nat) (c : Cur24)
    (hstart : RowStart24 o y c) :
    At24 o y 0
      { c with dR := c.drow * ((3 * o.m_width : Nat) : Int) + 2,
               dG := c.drow * ((3 * o.m_width : Nat) : Int) + 1,
               dB := c.drow * ((3 * o.m_width : Nat) : Int) + 0 } := by
  obtain ⟨hsR, hsG, hsB, hl, hdrow⟩ := hstart
  refine ⟨by simpa using hsR, by simpa using hsG, by simpa using hsB, hl, hdrow, ?_, ?_, ?_⟩
  · show c.drow * ((3 * o.m_width : Nat) : Int) + 0 = _
    rw [hdrow]; unfold addr24; push_cast; ring
  · show c.drow * ((3 * o.m_width : Nat) : Int) + 1 = _
    rw [hdrow]; unfold addr24; push_cast; ring
  · show c.drow * ((3 * o.m_width : Nat) : Int) + 2 = _
    rw [hdrow]; unfold addr24; push_cast; ring

/-- On every valid 24-bit surface with `m_useRGB` the comparison of the last pixel is
given two bytes past the end of the frame, whatever the frame and the snapshot hold. -/
theorem remapped_path_always_reads_past_the_frame (o : FBMatrixOutput) (ch : Nat → Nat)
    (hv : ValidSurface o) (hbpp : o.m_bpp = 24) (hrgb : o.m_useRGB = true) :
    renderSafe o ch = false := by
  obtain ⟨hw, hh, -, hcc, -⟩ := hv
  have hstride : o.m_width * 24 / 8 = 3 * o.m_width := by omega
  by_contra hne
  have hsafe : renderSafe o ch = true := by simpa using hne
  simp only [renderSafe, hbpp, hrgb, if_true, hstride] at hsafe
  rw [if_neg (by decide)] at hsafe
  rw [loopSafe_iff] at hsafe
  have hrow := hsafe (o.m_height - 1) (by omega)
  obtain ⟨hrs, hdone⟩ := row24_iterate o ch o.m_fbp
    { fb := o.m_fbp, sR := 0, sG := 1, sB := 2, l := 0, dR := 0, dG := 0, dB := 0,
      srow := 0, drow := if o.m_inverted = true then (o.m_height : Int) - 1 else 0 }
    ⟨by simp, by simp, by simp, rfl, by unfold drowOf; split_ifs <;> simp⟩
    (by intro y1 x1 c1 _ _ _; simp) (o.m_height - 1)
  unfold row24Safe at hrow
  rw [loopSafe_iff] at hrow
  have hpix := hrow (o.m_width - 1) (by omega)
  obtain ⟨⟨-, -, hsB, -⟩, -⟩ := pixel24_iterate o ch o.m_fbp (o.m_height - 1) _
    (rowStart24_at o (o.m_height - 1) _ hrs) hdone (o.m_width - 1) (by omega)
  simp only [pixel24Safe, Bool.and_eq_true, inFrame, decide_eq_true_eq] at hpix
  have hlt := hpix.1.2
  rw [hsB, hcc] at hlt
  have e1 : (o.m_height - 1) * o.m_width + o.m_width = o.m_height * o.m_width := by
    have : o.m_height - 1 + 1 = o.m_height := by omega
    calc (o.m_height - 1) * o.m_width + o.m_width
        = (o.m_height - 1 + 1) * o.m_width := by ring
      _ = o.m_height * o.m_width := by rw [this]
  have e2 : o.m_width * o.m_height * 3 = 3 * (o.m_height * o.m_width) := by ring
  omega

theorem rowSim16_at (o : FBMatrixOutput) (ch : Nat → Nat) (y : Nat) (c : Cur16)
    (s : Int → Nat) (hsim : RowSim16 o ch y c s) :
    Sim16 o ch y 0 { c with d := c.drow * ((o.m_width * 2 : Nat) : Int) } s := by
  obtain ⟨hfb, hsR, hl, hdrow, hzero, hskip⟩ := hsim
  refine ⟨hfb, by simpa using hsR, by simpa using hl, hdrow, ?_, by simpa using hskip⟩
  intro h0
  obtain ⟨h1, h2⟩ := hzero h0
  refine ⟨by simpa using h1, by simpa using h2, ?_⟩
  show c.drow * ((o.m_width * 2 : Nat) : Int) = _
  rw [hdrow]; simp

theorem drowOf_range (o : FBMatrixOutput) (y : Nat) (hy : y < o.m_height) :
    0 ≤ drowOf o y ∧ drowOf o y + 1 ≤ (o.m_height : Int) := by
  unfold drowOf
  split_ifs <;> omega

/-- The accesses of the body of the inner loop of the 16-bit path lie in their buffers
when the deferred cursors are in place. -/
theorem pixel16Safe_of_sim (o : FBMatrixOutput) (ch : Nat → Nat) (y j : Nat) (c : Cur16)
    (s : Int → Nat) (hcc : o.m_channelCount = o.m_width * o.m_height * 3)
    (hss : o.m_screenSize = o.m_width * o.m_height * 2)
    (hfirst : ∀ p q, q < p → p < o.m_height * o.m_width →
      changed16 o ch p → changed16 o ch q)
    (hy : y < o.m_height) (hj : j < o.m_width) (hsim : Sim16 o ch y j c s) :
    pixel16Safe o ch c = true := by
  obtain ⟨-, hsR, hl, -, hzero, hskip⟩ := hsim
  have hrow : (y + 1) * o.m_width ≤ o.m_height * o.m_width :=
    Nat.mul_le_mul_right _ (by omega)
  have e1 : (y + 1) * o.m_width = y * o.m_width + o.m_width := by ring
  have e2 : o.m_width * o.m_height * 3 = 3 * (o.m_height * o.m_width) := by ring
  have hn : y * o.m_width + j < o.m_height * o.m_width := by omega
  simp only [pixel16Safe, inFrame, inSurface, Bool.and_eq_true, decide_eq_true_eq, hcc, hss,
    hsR, hl]
  refine ⟨⟨by omega, by omega⟩, ?_⟩
  split_ifs with hch
  · have hchanged : changed16 o ch (y * o.m_width + j) := by
      unfold changed16
      exact hch
    have hsk : c.skipped = 0 := by
      by_contra hne
      obtain ⟨q, hq, hnq⟩ := hskip hne
      exact hnq (hfirst _ q hq hn hchanged)
    obtain ⟨hsG, hsB, hd⟩ := hzero hsk
    have hcu : catchUp16 c = c := by simp [catchUp16, hsk]
    obtain ⟨hd0, hd1⟩ := drowOf_range o y hy
    have hmul1 : 0 ≤ drowOf o y * ((o.m_width * 2 : Nat) : Int) :=
      Int.mul_nonneg hd0 (by omega)
    have hmul2 : (drowOf o y + 1) * ((o.m_width * 2 : Nat) : Int) ≤
        (o.m_height : Int) * ((o.m_width * 2 : Nat) : Int) :=
      Int.mul_le_mul_of_nonneg_right hd1 (by omega)
    have e3 : (drowOf o y + 1) * ((o.m_width * 2 : Nat) : Int) =
        drowOf o y * ((o.m_width * 2 : Nat) : Int) + ((o.m_width * 2 : Nat) : Int) := by ring
    have e4 : ((o.m_width * o.m_height * 2 : Nat) : Int) =
        (o.m_height : Int) * ((o.m_width * 2 : Nat) : Int) := by push_cast; ring
    simp only [Bool.and_eq_true, decide_eq_true_eq, hcu, hsR, hsG, hsB, hd, e4]
    refine ⟨⟨⟨⟨by omega, by omega⟩, by omega⟩, ⟨by omega, by omega⟩⟩, ⟨by omega, by omega⟩⟩
  · rfl

/-- On a valid 16-bit surface, when no pixel that agrees with the snapshot comes before
a pixel that differs from it, every access of the render lies in its buffer. -/
theorem deferred_skip_path_in_bounds_when_changes_come_first (o : FBMatrixOutput)
    (ch : Nat → Nat) (hv : ValidSurface o) (hbpp : o.m_bpp = 16)
    (hfirst : ∀ p q, q < p → p < o.m_height * o.m_width →
      changed16 o ch p → changed16 o ch q) :
    renderSafe o ch = true := by
  obtain ⟨-, -, -, hcc, hss⟩ := hv
  rw [hbpp] at hss
  have hstride : o.m_width * 16 / 8 = o.m_width * 2 := by omega
  have hsize : o.m_width * o.m_height * 16 / 8 = o.m_width * o.m_height * 2 := by omega
  rw [hsize] at hss
  simp only [renderSafe, hbpp, if_true, hstride]
  rw [loopSafe_iff]
  intro k hk
  have hrows := row16_iterate_sim o ch
    { fb := o.m_fbp, sR := 0, sG := 1, sB := 2, l := 0, d := 0, skipped := 0, srow := 0,
      drow := if o.m_inverted = true then (o.m_height : Int) - 1 else 0 }
    o.m_fbp (o.m_height * o.m_width) hfirst
    ⟨rfl, by simp, by simp, by unfold drowOf; split_ifs <;> simp,
      fun _ => ⟨by simp, by simp⟩, fun h => absurd rfl h⟩ k
    (Nat.mul_le_mul_right _ (by omega))
  unfold row16Safe
  rw [loopSafe_iff]
  intro j hj
  have hrow : (k + 1) * o.m_width ≤ o.m_height * o.m_width :=
    Nat.mul_le_mul_right _ (by omega)
  have e1 : (k + 1) * o.m_width = k * o.m_width + o.m_width := by ring
  have hsim := pixel16_iterate_sim o ch k _ _ (o.m_height * o.m_width) hfirst
    (rowSim16_at o ch k _ _ hrows) j (by omega)
  exact pixel16Safe_of_sim o ch k j _ _ hcc hss hfirst hk hj hsim

/-! ## The result of `RawSendData` -/

/-- C1, counterexample to the claim as stated. On a valid 4 by 1 surface at 16 bits with
a black snapshot and the frame black, white, white, white, the fourth pixel is rendered
with `sG` at index 16 of a frame of 12 bytes: the checked call yields no result, so the
call need not reach the final `memcpy` and the `return`. On a 1 by 715827883 surface at
16 bits whose frame equals the snapshot, every access lies in its buffer and the call
returns -2147483647, not the channel count 2147483649. -/
theorem RawSendData_does_not_always_return_channelCount :
    (ValidSurface (mkSurface 4 1 16 true false []) ∧
      (mkSurface 4 1 16 true false []).m_channelCount = 12 ∧
      (catchUp16 ((pixel16 (mkSurface 4 1 16 true false [])
        (ofList [0, 0, 0, 255, 255, 255, 255, 255, 255, 255, 255, 255]))^[3]
          (start16 (mkSurface 4 1 16 true false [])))).sG = 16 ∧
      (RawSendDataChecked (mkSurface 4 1 16 true false [])
        (ofList [0, 0, 0, 255, 255, 255, 255, 255, 255, 255, 255, 255])).isNone = true) ∧
    ((mkSurface 1 715827883 16 true false []).m_channelCount = 2147483649 ∧
      renderSafe (mkSurface 1 715827883 16 true false []) (ofList []) = true ∧
      (RawSendDataChecked (mkSurface 1 715827883 16 true false []) (ofList [])).map
        Prod.snd = some (-2147483647)) := by
  have hvalid : ValidSurface (mkSurface 1 715827883 16 true false []) := by
    unfold ValidSurface
    decide
  have hbig : renderSafe (mkSurface 1 715827883 16 true false []) (ofList []) = true := by
    refine deferred_skip_path_in_bounds_when_changes_come_first _ _ hvalid rfl ?_
    intro p q _ _ hp
    exact absurd ((memcmp_eq_zero_iff _ _ 3 _ _).mpr (fun k _ => rfl)) hp
  refine ⟨⟨by unfold ValidSurface; decide, by decide, by decide, by decide⟩,
    by decide, hbig, ?_⟩
  unfold RawSendDataChecked
  rw [if_pos hbig]
  decide

end FPP
